import Mathlib

/-!
# Equalizer server: canvas state machine and layout switch

A shallow embedding of `src/server/canvas.cpp` (class `eq::server::Canvas`, the
`ActivateVisitor` and the `DeactivateVisitor`) together with the properties of
the layout switch that the specification states about it.

Pointers are modelled by natural numbers (the identity of the object pointed
to); a pointer that may be null is an `Option`.
-/

namespace Equalizer

/-- Identity of a `Channel` object (a non-null `Channel*`). -/
abbrev ChannelPtr := Nat

/-- Identity of a `Layout` object (a non-null `Layout*`). -/
abbrev LayoutPtr := Nat

/-- The result of visiting one node, `eq::VisitorResult`. -/
inductive VisitorResult where
  | TRAVERSE_CONTINUE
  | TRAVERSE_TERMINATE
  | TRAVERSE_PRUNE
  deriving DecidableEq, Repr

/-- The life-cycle state of a canvas, `Canvas::State`. -/
inductive State where
  | STATE_STOPPED
  | STATE_RUNNING
  | STATE_DELETE
  deriving DecidableEq, Repr

/-- A call made by a visitor on a compound or on its config. The config keeps
the calls in the order in which they were made (a ghost record: the source has
no such list, it only performs the calls). -/
inductive Call where
  | activate (channel : ChannelPtr)
  | deactivate (channel : ChannelPtr)
  | postNeedsFinish
  deriving DecidableEq, Repr

/-- The data of one compound that the layout switch reads or writes: its
destination channel, `Compound::getChannel()` (null when it has none), and its
active flag. -/
structure Compound where
  channel : Option ChannelPtr
  active : Bool
  deriving DecidableEq, Repr

/-- A compound forest: the empty forest, or a first compound with the forest of
its children and the forest of the siblings that follow it. -/
inductive Compounds where
  | nil
  | cons (compound : Compound) (children : Compounds) (rest : Compounds)
  deriving DecidableEq, Repr

/-- The server-side config, as far as the canvas uses it: the compound forest
it owns, the layout of each of its channels (`Channel::getLayout()`, null when
the channel has none), the needs-finish flag and the record of calls. -/
structure Config where
  compounds : Compounds
  channelLayout : ChannelPtr → Option LayoutPtr
  needsFinish : Bool
  calls : List Call

/-- A segment of a canvas, with `Segment::getDestinationChannels()`. -/
structure Segment where
  destChannels : List ChannelPtr
  deriving DecidableEq, Repr

/-- A server canvas: the layouts and segments of `fabric::Canvas`, its active
layout index (`getActiveLayoutIndex()`) and the `_state` member. -/
structure Canvas where
  layouts : List (Option LayoutPtr)
  segments : List Segment
  activeLayout : Nat
  _state : State
  deriving DecidableEq, Repr

/-- Modelled from the spec: `Compound::activate()` is not part of the sources at
hand; the specification has it "set its active flag true". -/
def Compound.activate (compound : Compound) : Compound :=
  { compound with active := true }

/-- Modelled from the spec: `Compound::deactivate()` is not part of the sources
at hand; the specification has the deactivation "setting active flags false". -/
def Compound.deactivate (compound : Compound) : Compound :=
  { compound with active := false }

/-- Ghost: note a call in the record of the config. -/
def Config.record (cfg : Config) (call : Call) : Config :=
  { cfg with calls := cfg.calls ++ [call] }

/-- Modelled from the spec: `Config::postNeedsFinish()` is not part of the
sources at hand; the specification describes a monotone flag that any caller
may set. -/
def Config.postNeedsFinish (cfg : Config) : Config :=
  { cfg.record Call.postNeedsFinish with needsFinish := true }

/-- Modelled from the spec: the traversal engine behind `Config::accept` is not
part of the sources at hand. Following section 4.4 of the specification, the
forest is walked depth-first; after `TRAVERSE_CONTINUE` the children of the node
are visited, after `TRAVERSE_PRUNE` they are skipped and the walk goes on with
the siblings, and `TRAVERSE_TERMINATE` aborts the whole walk. The Boolean tells
whether the walk was aborted (the callers in `canvas.cpp` drop the result). -/
def Compounds.accept {σ : Type} (visit : Compound → σ → VisitorResult × Compound × σ) :
    Compounds → σ → Bool × Compounds × σ
  | Compounds.nil, s => (false, Compounds.nil, s)
  | Compounds.cons compound children rest, s =>
    match visit compound s with
    | (VisitorResult.TRAVERSE_TERMINATE, compound1, s1) =>
      (true, Compounds.cons compound1 children rest, s1)
    | (VisitorResult.TRAVERSE_PRUNE, compound1, s1) =>
      match Compounds.accept visit rest s1 with
      | (stop, rest1, s2) => (stop, Compounds.cons compound1 children rest1, s2)
    | (VisitorResult.TRAVERSE_CONTINUE, compound1, s1) =>
      match Compounds.accept visit children s1 with
      | (true, children1, s2) => (true, Compounds.cons compound1 children1 rest, s2)
      | (false, children1, s2) =>
        match Compounds.accept visit rest s2 with
        | (stop, rest1, s3) => (stop, Compounds.cons compound1 children1 rest1, s3)

/-- The part of `Config::accept( ConfigVisitor& )` that reaches the compounds:
the visitor walks the compound forest of the config. -/
def Config.accept (visit : Compound → Config → VisitorResult × Compound × Config)
    (cfg : Config) : Config :=
  match cfg.compounds.accept visit cfg with
  | (_, compounds1, cfg1) => { cfg1 with compounds := compounds1 }

/-- The `for` loop of `ActivateVisitor::visit`: look for `channel` among the
channels of the visitor; at the first match activate the compound, post the
needs-finish condition and leave the loop. -/
def ActivateVisitor.loop (channel : ChannelPtr) :
    List ChannelPtr → Compound → Config → Compound × Config
  | [], compound, cfg => (compound, cfg)
  | destChannel :: more, compound, cfg =>
    if destChannel ≠ channel then ActivateVisitor.loop channel more compound cfg
    else (compound.activate, (cfg.record (Call.activate channel)).postNeedsFinish)

/-- `ActivateVisitor::visit( Compound* )` for a visitor holding `_channels`. -/
def ActivateVisitor.visit (_channels : List ChannelPtr) (compound : Compound) (cfg : Config) :
    VisitorResult × Compound × Config :=
  match compound.channel with
  | none => (VisitorResult.TRAVERSE_CONTINUE, compound, cfg)
  | some channel =>
    (VisitorResult.TRAVERSE_PRUNE, ActivateVisitor.loop channel _channels compound cfg)

/-- The `for` loop of `DeactivateVisitor::visit`. -/
def DeactivateVisitor.loop (channel : ChannelPtr) :
    List ChannelPtr → Compound → Config → Compound × Config
  | [], compound, cfg => (compound, cfg)
  | destChannel :: more, compound, cfg =>
    if destChannel ≠ channel then DeactivateVisitor.loop channel more compound cfg
    else (compound.deactivate, (cfg.record (Call.deactivate channel)).postNeedsFinish)

/-- `DeactivateVisitor::visit( Compound* )` for a visitor holding `_channels`. -/
def DeactivateVisitor.visit (_channels : List ChannelPtr) (compound : Compound) (cfg : Config) :
    VisitorResult × Compound × Config :=
  match compound.channel with
  | none => (VisitorResult.TRAVERSE_CONTINUE, compound, cfg)
  | some channel =>
    (VisitorResult.TRAVERSE_PRUNE, DeactivateVisitor.loop channel _channels compound cfg)

/-- The constructor `Canvas::Canvas`: whatever the base class sets up, the
state starts as `STATE_STOPPED`. -/
def Canvas.new (layouts : List (Option LayoutPtr)) (segments : List Segment)
    (activeLayout : Nat) : Canvas :=
  { layouts := layouts, segments := segments, activeLayout := activeLayout,
    _state := State.STATE_STOPPED }

/-- The lookup `(index >= nLayouts) ? 0 : layouts[index]` of `_switchLayout`. -/
def Canvas.layoutAt (cv : Canvas) (index : Nat) : Option LayoutPtr :=
  if h : cv.layouts.length ≤ index then none
  else cv.layouts.get ⟨index, Nat.lt_of_not_le h⟩

/-- The inner loop of `_switchLayout` filling `usedChannels`: the destination
channels of the segment whose layout is `layout`, in their order. -/
def Canvas.usedChannels (cfg : Config) (layout : LayoutPtr) :
    List ChannelPtr → List ChannelPtr
  | [] => []
  | channel :: more =>
    if cfg.channelLayout channel = some layout then
      channel :: Canvas.usedChannels cfg layout more
    else Canvas.usedChannels cfg layout more

/-- The `if( newLayout )` block of `_switchLayout` for one segment. -/
def Canvas.activateUsed (newLayout : Option LayoutPtr) (segment : Segment) (cfg : Config) :
    Config :=
  match newLayout with
  | none => cfg
  | some layout =>
    cfg.accept (ActivateVisitor.visit (Canvas.usedChannels cfg layout segment.destChannels))

/-- The `if( oldLayout )` block of `_switchLayout` for one segment. -/
def Canvas.deactivateUsed (oldLayout : Option LayoutPtr) (segment : Segment) (cfg : Config) :
    Config :=
  match oldLayout with
  | none => cfg
  | some layout =>
    cfg.accept (DeactivateVisitor.visit (Canvas.usedChannels cfg layout segment.destChannels))

/-- The body of the loop over the segments in `_switchLayout`. -/
def Canvas.switchSegment (oldLayout newLayout : Option LayoutPtr) (cfg : Config)
    (segment : Segment) : Config :=
  Canvas.deactivateUsed oldLayout segment (Canvas.activateUsed newLayout segment cfg)

/-- `Canvas::_switchLayout( oldIndex, newIndex )`. -/
def Canvas._switchLayout (cv : Canvas) (oldIndex newIndex : Nat) (cfg : Config) :
    Canvas × Config :=
  if oldIndex = newIndex then (cv, cfg)
  else
    (cv, cv.segments.foldl
      (Canvas.switchSegment (cv.layoutAt oldIndex) (cv.layoutAt newIndex)) cfg)

/-- `Canvas::activateLayout( index )`. -/
def Canvas.activateLayout (cv : Canvas) (index : Nat) (cfg : Config) : Canvas × Config :=
  if cv._state = State.STATE_RUNNING then cv._switchLayout cv.activeLayout index cfg
  else (cv, cfg)

/-- `Canvas::init()`, with the assertion compiled out. The constant `EQ_ID_NONE`
is declared outside the sources at hand and is taken as a parameter. -/
def Canvas.init (EQ_ID_NONE : Nat) (cv : Canvas) (cfg : Config) : Canvas × Config :=
  match cv._switchLayout EQ_ID_NONE cv.activeLayout cfg with
  | (cv1, cfg1) => ({ cv1 with _state := State.STATE_RUNNING }, cfg1)

/-- `Canvas::exit()`, with the assertion compiled out. -/
def Canvas.exit (EQ_ID_NONE : Nat) (cv : Canvas) (cfg : Config) : Canvas × Config :=
  match cv._switchLayout cv.activeLayout EQ_ID_NONE cfg with
  | (cv1, cfg1) =>
    if cv1._state = State.STATE_RUNNING then ({ cv1 with _state := State.STATE_STOPPED }, cfg1)
    else (cv1, cfg1)

/-- `Canvas::postDelete()`. -/
def Canvas.postDelete (cv : Canvas) (cfg : Config) : Canvas × Config :=
  ({ cv with _state := State.STATE_DELETE }, cfg.postNeedsFinish)

/-- The precondition asserted by `Canvas::exit()`. -/
def Canvas.exitAsserted (cv : Canvas) : Prop :=
  cv._state = State.STATE_RUNNING ∨ cv._state = State.STATE_DELETE

/-! ## Vocabulary of the statements -/

/-- Every compound of the forest `before` and the compound at the same place of
the forest `after` are related by `R`, and the two forests have the same shape
and the same destination channels. The Boolean passed to `R` tells whether a
proper ancestor of the compound has a destination channel; the first argument
is its value at the roots. -/
def Compounds.Related (R : Bool → Compound → Compound → Prop) :
    Bool → Compounds → Compounds → Prop
  | _, Compounds.nil, after => after = Compounds.nil
  | covered, Compounds.cons c children rest, after =>
    match after with
    | Compounds.nil => False
    | Compounds.cons c1 children1 rest1 =>
      c1.channel = c.channel ∧ R covered c c1 ∧
        Compounds.Related R (covered || c.channel.isSome) children children1 ∧
        Compounds.Related R covered rest rest1

/-- The active flags of the forest, in depth-first order. -/
def Compounds.flags : Compounds → List Bool
  | Compounds.nil => []
  | Compounds.cons c children rest => c.active :: (children.flags ++ rest.flags)

/-- The forest after a pass that sets the flag of every compound it reaches
whose channel is in `used` to `value`: a compound without channel is passed
through, a compound with a channel hides its children. -/
def Compounds.setUsed (value : Bool) (used : List ChannelPtr) : Compounds → Compounds
  | Compounds.nil => Compounds.nil
  | Compounds.cons c children rest =>
    match c.channel with
    | none => Compounds.cons c (children.setUsed value used) (rest.setUsed value used)
    | some channel =>
      Compounds.cons (if channel ∈ used then { c with active := value } else c) children
        (rest.setUsed value used)

/-- The calls of such a pass, in the order of the walk: for every compound
reached whose channel is in `used`, the call `mk channel` on the compound
followed by `postNeedsFinish` on the config. -/
def Compounds.passCalls (mk : ChannelPtr → Call) (used : List ChannelPtr) :
    Compounds → List Call
  | Compounds.nil => []
  | Compounds.cons c children rest =>
    match c.channel with
    | none => children.passCalls mk used ++ rest.passCalls mk used
    | some channel =>
      (if channel ∈ used then [mk channel, Call.postNeedsFinish] else []) ++
        rest.passCalls mk used

/-- The config after the calls `made` have been made: they are added to the
record and, if there are any, the needs-finish flag is up. -/
def Config.after (cfg : Config) (made : List Call) : Config :=
  { cfg with needsFinish := cfg.needsFinish || !made.isEmpty, calls := cfg.calls ++ made }

/-- The operations of the state machine that may follow a `postDelete()`. -/
inductive Op where
  | exit
  | activateLayout (index : Nat)
  | postDelete
  deriving DecidableEq, Repr

/-- Perform one operation on a canvas and its config. -/
def Op.apply (EQ_ID_NONE : Nat) (s : Canvas × Config) : Op → Canvas × Config
  | Op.exit => s.1.exit EQ_ID_NONE s.2
  | Op.activateLayout index => s.1.activateLayout index s.2
  | Op.postDelete => s.1.postDelete s.2

/-- Perform a sequence of operations, the head of the list first. -/
def Op.run (EQ_ID_NONE : Nat) (ops : List Op) (s : Canvas × Config) : Canvas × Config :=
  ops.foldl (Op.apply EQ_ID_NONE) s

/-- The config after a pass over its compounds that sets the flag of every
compound reached whose channel is in `used` to `value`, noting the calls. -/
def Config.pass (value : Bool) (mk : ChannelPtr → Call) (used : List ChannelPtr)
    (cfg : Config) : Config :=
  { cfg.after (cfg.compounds.passCalls mk used) with
    compounds := cfg.compounds.setUsed value used }

/-- Whether every `activate` call of a record comes before every `deactivate`
call of it: once a `deactivate` is met, no `activate` follows. -/
def Call.activationsFirst : List Call → Bool
  | [] => true
  | Call.deactivate _ :: more =>
    more.all (fun call => match call with
      | Call.activate _ => false
      | _ => true)
  | _ :: more => Call.activationsFirst more

/-- The calls of the body of the segment loop for one segment when both layouts
are present: those of the activation pass for the channels of the new layout,
then those of the deactivation pass for the channels of the old layout. -/
def Canvas.segmentCalls (cfg : Config) (oldLayout newLayout : LayoutPtr)
    (segment : Segment) : List Call :=
  cfg.compounds.passCalls Call.activate
      (Canvas.usedChannels cfg newLayout segment.destChannels) ++
    cfg.compounds.passCalls Call.deactivate
      (Canvas.usedChannels cfg oldLayout segment.destChannels)

/-- From `cfg` to `cfg1` the channels keep their layouts, every compound is
related to itself by `R`, and the calls made in between all satisfy `P`. -/
def Config.Step (R : Bool → Compound → Compound → Prop) (P : Call → Prop)
    (cfg cfg1 : Config) : Prop :=
  cfg1.channelLayout = cfg.channelLayout ∧
    Compounds.Related R false cfg.compounds cfg1.compounds ∧
    ∃ made, cfg1.calls = cfg.calls ++ made ∧ ∀ call ∈ made, P call

/-- A forest of one compound with destination channel 1 that has one child, a
compound with destination channel 2; both are inactive. -/
def Compounds.nested : Compounds :=
  Compounds.cons ⟨some 1, false⟩
    (Compounds.cons ⟨some 2, false⟩ Compounds.nil Compounds.nil) Compounds.nil

/-- A config owning the forest `Compounds.nested`; nothing is pending. -/
def Config.nested : Config :=
  { compounds := Compounds.nested, channelLayout := fun _ => some 10,
    needsFinish := false, calls := [] }

/-- A running canvas with the two layouts 10 and 11 and two segments: the
destination channel of the first segment is channel 1, that of the second is
channel 2. -/
def Canvas.twoSegments : Canvas :=
  { layouts := [some 10, some 11], segments := [⟨[1]⟩, ⟨[2]⟩], activeLayout := 0,
    _state := State.STATE_RUNNING }

/-- A config in which channel 1 belongs to layout 10 and every other channel to
layout 11, with two root compounds: an active one for channel 1 and an
inactive one for channel 2. -/
def Config.twoRoots : Config :=
  { compounds := Compounds.cons ⟨some 1, true⟩ Compounds.nil
      (Compounds.cons ⟨some 2, false⟩ Compounds.nil Compounds.nil),
    channelLayout := fun channel => if channel = 1 then some 10 else some 11,
    needsFinish := false, calls := [] }

/-- From `cfg` to `cfg1` either nothing at all has changed, or the needs-finish
flag is up and `postNeedsFinish` has been called in between. -/
def Config.Raised (cfg cfg1 : Config) : Prop :=
  cfg1 = cfg ∨
    (cfg1.needsFinish = true ∧
      cfg.calls.count Call.postNeedsFinish < cfg1.calls.count Call.postNeedsFinish)

/-! ## The end-to-end scenario, deregistration, the pipe -/

/-- The canvas of the end-to-end scenario: the layouts 10 (`Layout0`) and 11
(`Layout1`) and two segments of two destination channels each; the channels
are `A` = 1, `B` = 2 and `C` = 3, and `B` is a destination channel of both
segments. -/
def Canvas.scenario : Canvas :=
  { layouts := [some 10, some 11], segments := [⟨[1, 2]⟩, ⟨[2, 3]⟩], activeLayout := 0,
    _state := State.STATE_RUNNING }

/-- The config of the end-to-end scenario: three root compounds, for the
channels `A`, `B` and `C`, the first two active and the third inactive.
`Channel::getLayout()` returns one layout per channel: 10 for `A`, 11 for `C`
and `layoutB` for `B`. -/
def Config.scenario (layoutB : Option LayoutPtr) : Config :=
  { compounds := Compounds.cons ⟨some 1, true⟩ Compounds.nil
      (Compounds.cons ⟨some 2, true⟩ Compounds.nil
        (Compounds.cons ⟨some 3, false⟩ Compounds.nil Compounds.nil)),
    channelLayout := fun channel =>
      if channel = 1 then some 10 else if channel = 2 then layoutB else some 11,
    needsFinish := false, calls := [] }

/-- An object handed to `Session::deregisterObject`: a segment of the canvas or
the canvas itself. -/
inductive Object where
  | segment (segment : Segment)
  | canvas (canvas : Canvas)
  deriving DecidableEq, Repr

/-- The session of a canvas, `net::Session`, as far as `deregister` uses it:
the `deregisterObject` calls it has received, in their order (a ghost record;
what the session does with a call lies outside the sources at hand). -/
structure Session where
  deregistered : List Object
  deriving DecidableEq, Repr

/-- Ghost: the session receives the call `deregisterObject( object )`. -/
def Session.deregisterObject (session : Session) (object : Object) : Session :=
  { session with deregistered := session.deregistered ++ [object] }

/-- `Canvas::deregister()`, with the assertions compiled out: the loop over the
segments, then the canvas itself. -/
def Canvas.deregister (cv : Canvas) (session : Session) : Session :=
  (cv.segments.foldl (fun s segment => s.deregisterObject (Object.segment segment))
    session).deregisterObject (Object.canvas cv)

/-- `Canvas::getSegment( path )`, with the assertion compiled out; `path` is
given by its `segmentIndex`, and the null pointer is `none`. The vector is read
only below its size. -/
def Canvas.getSegment (cv : Canvas) (segmentIndex : Nat) : Option Segment :=
  if h : cv.segments.length ≤ segmentIndex then none
  else some (cv.segments.get ⟨segmentIndex, Nat.lt_of_not_le h⟩)

/-- An entry of a request queue: the node that sent the packet (an
`eqNet::Node*`) and the packet (an `eqNet::Packet*`), both by identity. -/
structure Request where
  node : Nat
  packet : Nat
  deriving DecidableEq, Repr

/-- The request queue of a pipe, `eqNet::RequestQueue`: its entries, the head
of the list being the next entry to be popped. -/
structure RequestQueue where
  requests : List Request
  deriving DecidableEq, Repr

/-- Modelled from the spec: `eqNet::RequestQueue::push` is not part of the
sources at hand; section 4.3 of the specification has `push(origin, payload)`
append the entry to the tail of the queue. -/
def RequestQueue.push (queue : RequestQueue) (node packet : Nat) : RequestQueue :=
  { queue with requests := queue.requests ++ [⟨node, packet⟩] }

/-- A client pipe, `eq::Pipe` of `pipe.h`: the parent node, the windows, the
display and screen numbers, and the request queue of the pipe thread. -/
structure Pipe where
  _node : Option Nat
  _windows : List Nat
  _display : Nat
  _screen : Nat
  _requestQueue : RequestQueue
  deriving DecidableEq, Repr

/-- `Pipe::pushCommand( node, packet )`. The enumerator `COMMAND_HANDLED` of
`eqNet::CommandResult` is declared outside the sources at hand and is taken as
a parameter. -/
def Pipe.pushCommand (COMMAND_HANDLED : Nat) (pipe : Pipe) (node packet : Nat) : Pipe × Nat :=
  ({ pipe with _requestQueue := pipe._requestQueue.push node packet }, COMMAND_HANDLED)

/-- A sequence of `pushCommand` calls, the head of the list first: the pipe
after the calls and the results returned, in call order. -/
def Pipe.pushCommands (COMMAND_HANDLED : Nat) : Pipe → List Request → Pipe × List Nat
  | pipe, [] => (pipe, [])
  | pipe, request :: more =>
    match pipe.pushCommand COMMAND_HANDLED request.node request.packet with
    | (pipe1, result) =>
      match Pipe.pushCommands COMMAND_HANDLED pipe1 more with
      | (pipe2, results) => (pipe2, result :: results)

/-! ## Channel contexts and attributes, error codes, event names -/

/-- A pixel viewport, `PixelViewport`: position and size in pixels. -/
structure PixelViewport where
  x : Int
  y : Int
  w : Int
  h : Int
  deriving DecidableEq, Repr

/-- The members of `RenderContext` that `channel.h` reads. The type is declared
outside the sources at hand; apart from the pixel viewport each value is only
handed on by the accessors and is kept as a code. -/
structure RenderContext where
  buffer : Nat
  bufferMask : Nat
  pvp : PixelViewport
  frustum : Nat
  ortho : Nat
  headTransform : Nat
  vp : Nat
  range : Nat
  pixel : Nat
  subpixel : Nat
  zoom : Nat
  period : Nat
  phase : Nat
  offset : Nat
  eye : Nat
  overdraw : Nat
  taskID : Nat
  deriving DecidableEq, Repr

/-- What the pointer `_context` of a channel points to: the channel's own
`_nativeContext`, or a context handed to `overrideContext`. -/
inductive ContextRef where
  | native
  | other (context : RenderContext)
  deriving DecidableEq, Repr

/-- The integer attributes of a channel, `Channel::IAttribute`. -/
inductive IAttribute where
  | IATTR_HINT_STATISTICS
  | IATTR_HINT_SENDTOKEN
  | IATTR_FILL1
  | IATTR_FILL2
  | IATTR_ALL
  deriving DecidableEq, Repr

/-- The value of an enumerator of `IAttribute`: none has an initialiser, so they
count from 0. -/
def IAttribute.toNat : IAttribute → Nat
  | IAttribute.IATTR_HINT_STATISTICS => 0
  | IAttribute.IATTR_HINT_SENDTOKEN => 1
  | IAttribute.IATTR_FILL1 => 2
  | IAttribute.IATTR_FILL2 => 3
  | IAttribute.IATTR_ALL => 4

/-- A fabric channel, `fabric::Channel` of `channel.h`: the native render
context, the current context, the array `_iAttributes`, and of the base class
`Object` the role (`isMaster()`) and the mask of dirty bits. -/
structure Channel where
  _nativeContext : RenderContext
  _context : ContextRef
  _iAttributes : List Int
  isMaster : Bool
  dirty : Nat
  deriving DecidableEq, Repr

/-- `Channel::overrideContext( context )`. -/
def Channel.overrideContext (ch : Channel) (context : RenderContext) : Channel :=
  { ch with _context := ContextRef.other context }

/-- `Channel::resetContext()`. -/
def Channel.resetContext (ch : Channel) : Channel :=
  { ch with _context := ContextRef.native }

/-- `Channel::getContext()`: the context `_context` points to. -/
def Channel.getContext (ch : Channel) : RenderContext :=
  match ch._context with
  | ContextRef.native => ch._nativeContext
  | ContextRef.other context => context

/-- `Channel::getNativeContext()`. -/
def Channel.getNativeContext (ch : Channel) : RenderContext := ch._nativeContext

/-- `Channel::getNativePixelViewport()`. -/
def Channel.getNativePixelViewport (ch : Channel) : PixelViewport := ch._nativeContext.pvp

/-- `Channel::getDrawBuffer()`. -/
def Channel.getDrawBuffer (ch : Channel) : Nat := ch.getContext.buffer

/-- `Channel::getReadBuffer()`. -/
def Channel.getReadBuffer (ch : Channel) : Nat := ch.getContext.buffer

/-- `Channel::getDrawBufferMask()`. -/
def Channel.getDrawBufferMask (ch : Channel) : Nat := ch.getContext.bufferMask

/-- `Channel::getPixelViewport()`. -/
def Channel.getPixelViewport (ch : Channel) : PixelViewport := ch.getContext.pvp

/-- `Channel::getFrustum()`. -/
def Channel.getFrustum (ch : Channel) : Nat := ch.getContext.frustum

/-- `Channel::getOrtho()`. -/
def Channel.getOrtho (ch : Channel) : Nat := ch.getContext.ortho

/-- `Channel::getHeadTransform()`. -/
def Channel.getHeadTransform (ch : Channel) : Nat := ch.getContext.headTransform

/-- `Channel::getViewport()`. -/
def Channel.getViewport (ch : Channel) : Nat := ch.getContext.vp

/-- `Channel::getRange()`. -/
def Channel.getRange (ch : Channel) : Nat := ch.getContext.range

/-- `Channel::getPixel()`. -/
def Channel.getPixel (ch : Channel) : Nat := ch.getContext.pixel

/-- `Channel::getSubPixel()`. -/
def Channel.getSubPixel (ch : Channel) : Nat := ch.getContext.subpixel

/-- `Channel::getZoom()`. -/
def Channel.getZoom (ch : Channel) : Nat := ch.getContext.zoom

/-- `Channel::getPeriod()`. -/
def Channel.getPeriod (ch : Channel) : Nat := ch.getContext.period

/-- `Channel::getPhase()`. -/
def Channel.getPhase (ch : Channel) : Nat := ch.getContext.phase

/-- `Channel::getPixelOffset()`. -/
def Channel.getPixelOffset (ch : Channel) : Nat := ch.getContext.offset

/-- `Channel::getEye()`. -/
def Channel.getEye (ch : Channel) : Nat := ch.getContext.eye

/-- `Channel::getOverdraw()`. -/
def Channel.getOverdraw (ch : Channel) : Nat := ch.getContext.overdraw

/-- `Channel::getTaskID()`. -/
def Channel.getTaskID (ch : Channel) : Nat := ch.getContext.taskID

/-- The values of all the context-specific accessors of a channel, in the order
of their declaration. -/
def Channel.contextData (ch : Channel) : RenderContext :=
  { buffer := ch.getDrawBuffer, bufferMask := ch.getDrawBufferMask, pvp := ch.getPixelViewport,
    frustum := ch.getFrustum, ortho := ch.getOrtho, headTransform := ch.getHeadTransform,
    vp := ch.getViewport, range := ch.getRange, pixel := ch.getPixel,
    subpixel := ch.getSubPixel, zoom := ch.getZoom, period := ch.getPeriod,
    phase := ch.getPhase, offset := ch.getPixelOffset, eye := ch.getEye,
    overdraw := ch.getOverdraw, taskID := ch.getTaskID }

/-- Modelled from the spec: `Object::setDirty` is not part of the sources at
hand; the specification has `markDirty(group)` set the bit on a master and be
a no-op on a slave. -/
def Channel.setDirty (ch : Channel) (bits : Nat) : Channel :=
  if ch.isMaster then { ch with dirty := ch.dirty ||| bits } else ch

/-- `Channel::DIRTY_ATTRIBUTES = Object::DIRTY_CUSTOM << 0`. The constant
`Object::DIRTY_CUSTOM` is declared outside the sources at hand and is taken as
a parameter. -/
def Channel.DIRTY_ATTRIBUTES (DIRTY_CUSTOM : Nat) : Nat := DIRTY_CUSTOM <<< 0

/-- `Channel::setIAttribute( attr, value )`. -/
def Channel.setIAttribute (DIRTY_CUSTOM : Nat) (ch : Channel) (attr : IAttribute)
    (value : Int) : Channel :=
  Channel.setDirty { ch with _iAttributes := ch._iAttributes.set attr.toNat value }
    (Channel.DIRTY_ATTRIBUTES DIRTY_CUSTOM)

/-- The enumerators of `eq::fabric::ErrorCode`. -/
inductive ErrorCode where
  | ERROR_NONE
  | ERROR_FBO_UNSUPPORTED
  | ERROR_FRAMEBUFFER_STATUS
  | ERROR_FRAMEBUFFER_UNSUPPORTED
  | ERROR_FRAMEBUFFER_INCOMPLETE_MISSING_ATTACHMENT
  | ERROR_FRAMEBUFFER_INCOMPLETE_ATTACHMENT
  | ERROR_FRAMEBUFFER_INCOMPLETE_DIMENSIONS
  | ERROR_FRAMEBUFFER_INCOMPLETE_FORMATS
  | ERROR_FRAMEBUFFER_INCOMPLETE_DRAW_BUFFER
  | ERROR_FRAMEBUFFER_INCOMPLETE_READ_BUFFER
  | ERROR_FRAMEBUFFER_INITIALIZED
  | ERROR_FRAMEBUFFER_INVALID_SIZE
  | ERROR_CUDACONTEXT_DEVICE_NOTFOUND
  | ERROR_CUDACONTEXT_INIT_FAILED
  | ERROR_CUDACONTEXT_MISSING_SUPPORT
  | ERROR_WINDOWSYSTEM_UNKNOWN
  | ERROR_NODE_LAUNCH
  | ERROR_NODE_CONNECT
  | ERROR_PIPE_NODE_NOTRUNNING
  | ERROR_SYSTEMPIPE_PIXELFORMAT_NOTFOUND
  | ERROR_SYSTEMPIPE_CREATECONTEXT_FAILED
  | ERROR_SYSTEMPIPE_CREATEWINDOW_FAILED
  | ERROR_AGLPIPE_DISPLAYS_NOTFOUND
  | ERROR_AGLPIPE_DEVICE_NOTFOUND
  | ERROR_GLXPIPE_DEVICE_NOTFOUND
  | ERROR_GLXPIPE_GLX_NOTFOUND
  | ERROR_GLXPIPE_GLXEWINIT_FAILED
  | ERROR_WGL_CREATEAFFINITYDC_FAILED
  | ERROR_WGLPIPE_ENUMDISPLAYS_FAILED
  | ERROR_WGLPIPE_CREATEDC_FAILED
  | ERROR_WGLPIPE_ENUMGPUS_FAILED
  | ERROR_WGLPIPE_REGISTERCLASS_FAILED
  | ERROR_WGLPIPE_SETPF_FAILED
  | ERROR_WGLPIPE_WGLEWINIT_FAILED
  | ERROR_WINDOW_PIPE_NOTRUNNING
  | ERROR_WINDOW_PVP_INVALID
  | ERROR_SYSTEMWINDOW_PIXELFORMAT_NOTFOUND
  | ERROR_SYSTEMWINDOW_NO_PIXELFORMAT
  | ERROR_SYSTEMWINDOW_ARB_FLOAT_FB_REQUIRED
  | ERROR_AGLWINDOW_NO_CONTEXT
  | ERROR_AGLWINDOW_CREATECONTEXT_FAILED
  | ERROR_AGLWINDOW_CREATEPBUFFER_FAILED
  | ERROR_AGLWINDOW_SETPBUFFER_FAILED
  | ERROR_AGLWINDOW_CREATEWINDOW_FAILED
  | ERROR_AGLWINDOW_SETWINDOW_FAILED
  | ERROR_GLXWINDOW_NO_DRAWABLE
  | ERROR_GLXWINDOW_NO_DISPLAY
  | ERROR_GLXWINDOW_CREATECONTEXT_FAILED
  | ERROR_GLXWINDOW_CREATEWINDOW_FAILED
  | ERROR_GLXWINDOW_GLXQUERYVERSION_FAILED
  | ERROR_GLXWINDOW_GLX_1_3_REQUIRED
  | ERROR_GLXWINDOW_NO_FBCONFIG
  | ERROR_GLXWINDOW_NO_VISUAL
  | ERROR_GLXWINDOW_CREATEPBUFFER_FAILED
  | ERROR_GLXWINDOW_FBCONFIG_REQUIRED
  | ERROR_WGLWINDOW_NO_DRAWABLE
  | ERROR_WGLWINDOW_SETPIXELFORMAT_FAILED
  | ERROR_WGLWINDOW_REGISTERCLASS_FAILED
  | ERROR_WGLWINDOW_FULLSCREEN_FAILED
  | ERROR_WGLWINDOW_CREATEWINDOW_FAILED
  | ERROR_WGLWINDOW_ARB_PBUFFER_REQUIRED
  | ERROR_WGLWINDOW_CREATEPBUFFER_FAILED
  | ERROR_WGLWINDOW_SETAFFINITY_PF_FAILED
  | ERROR_WGLWINDOW_CHOOSE_PF_ARB_FAILED
  | ERROR_WGLWINDOW_CREATECONTEXT_FAILED
  | ERROR_CHANNEL_WINDOW_NOTRUNNING
  | ERROR_PBO_UNSUPPORTED
  | ERROR_PBO_NOT_INITIALIZED
  | ERROR_PBO_SIZE_TOO_SMALL
  | ERROR_PBO_TYPE_UNSUPPORTED
  | ERROR_CUSTOM
  deriving DecidableEq, Repr

/-- The constant `LB_64KB` is declared in `lunchbox/types.h`, outside the
sources at hand; `errorCodes.h` gives its value in the comment at its use,
`// 0x10000`. -/
def LB_64KB : Nat := 0x10000

/-- The enumerator list of `enum ErrorCode`, in the order of the declaration,
each enumerator with its initialiser when it has one. -/
def ErrorCode.declared : List (ErrorCode × Option Nat) :=
  [(ErrorCode.ERROR_NONE, some 0), (ErrorCode.ERROR_FBO_UNSUPPORTED, none),
    (ErrorCode.ERROR_FRAMEBUFFER_STATUS, none), (ErrorCode.ERROR_FRAMEBUFFER_UNSUPPORTED, none),
    (ErrorCode.ERROR_FRAMEBUFFER_INCOMPLETE_MISSING_ATTACHMENT, none),
    (ErrorCode.ERROR_FRAMEBUFFER_INCOMPLETE_ATTACHMENT, none),
    (ErrorCode.ERROR_FRAMEBUFFER_INCOMPLETE_DIMENSIONS, none),
    (ErrorCode.ERROR_FRAMEBUFFER_INCOMPLETE_FORMATS, none),
    (ErrorCode.ERROR_FRAMEBUFFER_INCOMPLETE_DRAW_BUFFER, none),
    (ErrorCode.ERROR_FRAMEBUFFER_INCOMPLETE_READ_BUFFER, none),
    (ErrorCode.ERROR_FRAMEBUFFER_INITIALIZED, none),
    (ErrorCode.ERROR_FRAMEBUFFER_INVALID_SIZE, none),
    (ErrorCode.ERROR_CUDACONTEXT_DEVICE_NOTFOUND, none),
    (ErrorCode.ERROR_CUDACONTEXT_INIT_FAILED, none),
    (ErrorCode.ERROR_CUDACONTEXT_MISSING_SUPPORT, none),
    (ErrorCode.ERROR_WINDOWSYSTEM_UNKNOWN, none), (ErrorCode.ERROR_NODE_LAUNCH, none),
    (ErrorCode.ERROR_NODE_CONNECT, none), (ErrorCode.ERROR_PIPE_NODE_NOTRUNNING, none),
    (ErrorCode.ERROR_SYSTEMPIPE_PIXELFORMAT_NOTFOUND, none),
    (ErrorCode.ERROR_SYSTEMPIPE_CREATECONTEXT_FAILED, none),
    (ErrorCode.ERROR_SYSTEMPIPE_CREATEWINDOW_FAILED, none),
    (ErrorCode.ERROR_AGLPIPE_DISPLAYS_NOTFOUND, none),
    (ErrorCode.ERROR_AGLPIPE_DEVICE_NOTFOUND, none),
    (ErrorCode.ERROR_GLXPIPE_DEVICE_NOTFOUND, none), (ErrorCode.ERROR_GLXPIPE_GLX_NOTFOUND, none),
    (ErrorCode.ERROR_GLXPIPE_GLXEWINIT_FAILED, none),
    (ErrorCode.ERROR_WGL_CREATEAFFINITYDC_FAILED, none),
    (ErrorCode.ERROR_WGLPIPE_ENUMDISPLAYS_FAILED, none),
    (ErrorCode.ERROR_WGLPIPE_CREATEDC_FAILED, none),
    (ErrorCode.ERROR_WGLPIPE_ENUMGPUS_FAILED, none),
    (ErrorCode.ERROR_WGLPIPE_REGISTERCLASS_FAILED, none),
    (ErrorCode.ERROR_WGLPIPE_SETPF_FAILED, none),
    (ErrorCode.ERROR_WGLPIPE_WGLEWINIT_FAILED, none),
    (ErrorCode.ERROR_WINDOW_PIPE_NOTRUNNING, none), (ErrorCode.ERROR_WINDOW_PVP_INVALID, none),
    (ErrorCode.ERROR_SYSTEMWINDOW_PIXELFORMAT_NOTFOUND, none),
    (ErrorCode.ERROR_SYSTEMWINDOW_NO_PIXELFORMAT, none),
    (ErrorCode.ERROR_SYSTEMWINDOW_ARB_FLOAT_FB_REQUIRED, none),
    (ErrorCode.ERROR_AGLWINDOW_NO_CONTEXT, none),
    (ErrorCode.ERROR_AGLWINDOW_CREATECONTEXT_FAILED, none),
    (ErrorCode.ERROR_AGLWINDOW_CREATEPBUFFER_FAILED, none),
    (ErrorCode.ERROR_AGLWINDOW_SETPBUFFER_FAILED, none),
    (ErrorCode.ERROR_AGLWINDOW_CREATEWINDOW_FAILED, none),
    (ErrorCode.ERROR_AGLWINDOW_SETWINDOW_FAILED, none),
    (ErrorCode.ERROR_GLXWINDOW_NO_DRAWABLE, none), (ErrorCode.ERROR_GLXWINDOW_NO_DISPLAY, none),
    (ErrorCode.ERROR_GLXWINDOW_CREATECONTEXT_FAILED, none),
    (ErrorCode.ERROR_GLXWINDOW_CREATEWINDOW_FAILED, none),
    (ErrorCode.ERROR_GLXWINDOW_GLXQUERYVERSION_FAILED, none),
    (ErrorCode.ERROR_GLXWINDOW_GLX_1_3_REQUIRED, none),
    (ErrorCode.ERROR_GLXWINDOW_NO_FBCONFIG, none), (ErrorCode.ERROR_GLXWINDOW_NO_VISUAL, none),
    (ErrorCode.ERROR_GLXWINDOW_CREATEPBUFFER_FAILED, none),
    (ErrorCode.ERROR_GLXWINDOW_FBCONFIG_REQUIRED, none),
    (ErrorCode.ERROR_WGLWINDOW_NO_DRAWABLE, none),
    (ErrorCode.ERROR_WGLWINDOW_SETPIXELFORMAT_FAILED, none),
    (ErrorCode.ERROR_WGLWINDOW_REGISTERCLASS_FAILED, none),
    (ErrorCode.ERROR_WGLWINDOW_FULLSCREEN_FAILED, none),
    (ErrorCode.ERROR_WGLWINDOW_CREATEWINDOW_FAILED, none),
    (ErrorCode.ERROR_WGLWINDOW_ARB_PBUFFER_REQUIRED, none),
    (ErrorCode.ERROR_WGLWINDOW_CREATEPBUFFER_FAILED, none),
    (ErrorCode.ERROR_WGLWINDOW_SETAFFINITY_PF_FAILED, none),
    (ErrorCode.ERROR_WGLWINDOW_CHOOSE_PF_ARB_FAILED, none),
    (ErrorCode.ERROR_WGLWINDOW_CREATECONTEXT_FAILED, none),
    (ErrorCode.ERROR_CHANNEL_WINDOW_NOTRUNNING, none), (ErrorCode.ERROR_PBO_UNSUPPORTED, none),
    (ErrorCode.ERROR_PBO_NOT_INITIALIZED, none), (ErrorCode.ERROR_PBO_SIZE_TOO_SMALL, none),
    (ErrorCode.ERROR_PBO_TYPE_UNSUPPORTED, none), (ErrorCode.ERROR_CUSTOM, some LB_64KB)]

/-- The rule of C++ for the values of enumerators: an enumerator has the value
of its initialiser, and without one the value of its predecessor plus one;
`next` is the value an enumerator without initialiser gets. -/
def ErrorCode.assign : Nat → List (ErrorCode × Option Nat) → List (ErrorCode × Nat)
  | _, [] => []
  | _, (code, some value) :: more => (code, value) :: ErrorCode.assign (value + 1) more
  | next, (code, none) :: more => (code, next) :: ErrorCode.assign (next + 1) more

/-- The enumerators of `ErrorCode` with their values. -/
def ErrorCode.table : List (ErrorCode × Nat) := ErrorCode.assign 0 ErrorCode.declared

/-- The value of an error code. -/
def ErrorCode.toNat (code : ErrorCode) : Nat :=
  match ErrorCode.table.lookup code with
  | some value => value
  | none => 0

/-- The predefined error codes: all the enumerators before `ERROR_CUSTOM`. -/
def ErrorCode.predefined : List ErrorCode :=
  (ErrorCode.table.map Prod.fst).filter (fun code => code ≠ ErrorCode.ERROR_CUSTOM)

/-- The initialisers of the array `_eventTypeNames` of `event.cpp`. -/
def Event.eventTypeNameList : List String :=
  ["expose", "window resize", "window close", "window show", "window hide", "pointer motion",
    "pointer button press", "pointer button release", "key press", "key release",
    "channel resize", "statistic", "view resize", "unknown", "user-specific"]

/-- The array `_eventTypeNames[ Event::ALL ]`: `ALL` strings, the first ones
given by the initialisers, the others empty. The enumerator `Event::ALL` is
declared outside the sources at hand and is taken as a parameter. -/
def Event._eventTypeNames (ALL : Nat) (index : Fin ALL) : String :=
  Event.eventTypeNameList.getD index.val ""

/-- The value of an `Event::Type` as the comparison of `operator <<` sees it:
the enum is promoted to a signed `int`, so a stored 32-bit value with bit 31
set is negative. -/
def Event.asInt (type : Fin 4294967296) : Int :=
  if type.val < 2147483648 then (type.val : Int) else (type.val : Int) - 4294967296

/-- `operator << ( std::ostream&, const Event::Type& )`: the text of the stream
after the call, `os` being its text before; `none` when the table is read
outside its bounds. The type is given by the 32-bit value stored in it. The
test `type >= Event::ALL` compares signed integers; `static_cast<unsigned>`
gives the stored value back, which the stream prints in decimal; in the other
branch the table is read at the signed value. -/
def Event.printType (ALL : Nat) (os : String) (type : Fin 4294967296) : Option String :=
  if (ALL : Int) ≤ Event.asInt type then
    some (os ++ "unknown (" ++ toString type.val ++ ")")
  else if h : 0 ≤ Event.asInt type ∧ (Event.asInt type).toNat < ALL then
    some (os ++ Event._eventTypeNames ALL ⟨(Event.asInt type).toNat, h.2⟩)
  else none

/-- A channel whose contexts and attributes are all zero, with the given role
and dirty mask. -/
def Channel.blank (isMaster : Bool) (dirty : Nat) : Channel :=
  { _nativeContext := ⟨0, 0, ⟨0, 0, 0, 0⟩, 0, 0, 0, 0, 0, 0, 0, 0, 0, 0, 0, 0, 0, 0⟩,
    _context := ContextRef.native, _iAttributes := [0, 0, 0, 0], isMaster := isMaster,
    dirty := dirty }

/-- The initialisers of the array `_stateEventTypeNames` of `event.cpp`. Two
string literals that follow each other without a comma form one string. -/
def Statistic.stateEventTypeNameList : List String :=
  ["NO EVENT          ", "channel clear     ", "channel draw      ", "channel finishdraw",
    "channel assemble  ", "channel readback  ", "channel transmit  ", "channel transmit 1",
    "channel wait frame", "channel compress", "window finish", "window swap barrier",
    "window swap buffer", "window throttle framerate", "pipe idle",
    "node transmit" ++ "node compress", "config start frame", "config finishframe",
    "config wait finish"]

/-- The array `_stateEventTypeNames[ Statistic::TYPE_ALL ]`: `TYPE_ALL` strings,
the first ones given by the initialisers, the others empty. The enumerator
`Statistic::TYPE_ALL` is declared outside the sources at hand and is taken as a
parameter. -/
def Statistic._stateEventTypeNames (TYPE_ALL : Nat) (index : Fin TYPE_ALL) : String :=
  Statistic.stateEventTypeNameList.getD index.val ""

/-- The names the table should hold according to the layout of the source, one
string on each line of the initialiser. -/
def Statistic.namesAsListed : List String :=
  ["NO EVENT          ", "channel clear     ", "channel draw      ", "channel finishdraw",
    "channel assemble  ", "channel readback  ", "channel transmit  ", "channel transmit 1",
    "channel wait frame", "channel compress", "window finish", "window swap barrier",
    "window swap buffer", "window throttle framerate", "pipe idle",
    "node transmit", "node compress", "config start frame", "config finishframe",
    "config wait finish"]

/-! ## Repeated switches -/

/-- The forest after a set of writes to the flags: `w` gives for a channel the
value to write, if any; the flag of every compound reached by a walk (a
compound with no ancestor that has a channel) whose channel has a value under
`w` is set to that value. -/
def Compounds.write (w : ChannelPtr → Option Bool) : Compounds → Compounds
  | Compounds.nil => Compounds.nil
  | Compounds.cons c children rest =>
    match c.channel with
    | none => Compounds.cons c (children.write w) (rest.write w)
    | some channel =>
      Compounds.cons
        (match w channel with
          | some value => { c with active := value }
          | none => c)
        children (rest.write w)

/-- The writes of a pass that sets the flags for the channels in `used` to
`value`. -/
def Compounds.passWrite (value : Bool) (used : List ChannelPtr) : ChannelPtr → Option Bool :=
  fun channel => if channel ∈ used then some value else none

/-- The writes `first` followed by the writes `second`: for a channel written
by both, the later value stays. -/
def Compounds.thenWrite (first second : ChannelPtr → Option Bool) :
    ChannelPtr → Option Bool :=
  fun channel =>
    match second channel with
    | some value => some value
    | none => first channel

/-- The calls of the body of the segment loop for one segment, each of the two
layouts being present or not: those of the activation pass if there is a new
layout, then those of the deactivation pass if there is an old layout. -/
def Canvas.stepCalls (cfg : Config) (oldLayout newLayout : Option LayoutPtr)
    (segment : Segment) : List Call :=
  (match newLayout with
    | none => []
    | some layout =>
      cfg.compounds.passCalls Call.activate
        (Canvas.usedChannels cfg layout segment.destChannels)) ++
  (match oldLayout with
    | none => []
    | some layout =>
      cfg.compounds.passCalls Call.deactivate
        (Canvas.usedChannels cfg layout segment.destChannels))

/-! ## Lemmas on the visitors and the traversal -/

theorem Config.after_nil (cfg : Config) : cfg.after [] = cfg := by
  cases cfg; simp [Config.after]

theorem Config.after_after (cfg : Config) (a b : List Call) :
    (cfg.after a).after b = cfg.after (a ++ b) := by
  cases a <;> cases b <;> simp [Config.after, Bool.or_assoc]

theorem Config.record_postNeedsFinish (cfg : Config) (call : Call) :
    (cfg.record call).postNeedsFinish = cfg.after [call, Call.postNeedsFinish] := by
  simp [Config.record, Config.postNeedsFinish, Config.after]

theorem ActivateVisitor.activate_loop_eq (channel : ChannelPtr) (used : List ChannelPtr)
    (c : Compound) (cfg : Config) :
    ActivateVisitor.loop channel used c cfg =
      if channel ∈ used then
        (c.activate, cfg.after [Call.activate channel, Call.postNeedsFinish])
      else (c, cfg) := by
  induction used with
  | nil => simp [ActivateVisitor.loop]
  | cons d more ih =>
    by_cases h : d = channel
    · simp [ActivateVisitor.loop, h, Config.record_postNeedsFinish]
    · have h1 : ¬ channel = d := fun e => h e.symm
      simp [ActivateVisitor.loop, h, h1, ih]

theorem DeactivateVisitor.deactivate_loop_eq (channel : ChannelPtr) (used : List ChannelPtr)
    (c : Compound) (cfg : Config) :
    DeactivateVisitor.loop channel used c cfg =
      if channel ∈ used then
        (c.deactivate, cfg.after [Call.deactivate channel, Call.postNeedsFinish])
      else (c, cfg) := by
  induction used with
  | nil => simp [DeactivateVisitor.loop]
  | cons d more ih =>
    by_cases h : d = channel
    · simp [DeactivateVisitor.loop, h, Config.record_postNeedsFinish]
    · have h1 : ¬ channel = d := fun e => h e.symm
      simp [DeactivateVisitor.loop, h, h1, ih]

theorem Compounds.walk_activate (used : List ChannelPtr) (cs : Compounds) (cfg : Config) :
    cs.accept (ActivateVisitor.visit used) cfg =
      (false, cs.setUsed true used, cfg.after (cs.passCalls Call.activate used)) := by
  induction cs generalizing cfg with
  | nil => simp [Compounds.accept, Compounds.setUsed, Compounds.passCalls, Config.after_nil]
  | cons c children rest ihc ihr =>
    cases hc : c.channel with
    | none =>
      simp [Compounds.accept, ActivateVisitor.visit, hc, ihc, ihr, Compounds.setUsed,
        Compounds.passCalls, Config.after_after]
    | some channel =>
      by_cases hm : channel ∈ used
      · simp [Compounds.accept, ActivateVisitor.visit, hc, ihr, Compounds.setUsed,
          Compounds.passCalls, Config.after_after, ActivateVisitor.activate_loop_eq, hm,
          Compound.activate]
      · simp [Compounds.accept, ActivateVisitor.visit, hc, ihr, Compounds.setUsed,
          Compounds.passCalls, ActivateVisitor.activate_loop_eq, hm]

theorem Compounds.walk_deactivate (used : List ChannelPtr) (cs : Compounds) (cfg : Config) :
    cs.accept (DeactivateVisitor.visit used) cfg =
      (false, cs.setUsed false used, cfg.after (cs.passCalls Call.deactivate used)) := by
  induction cs generalizing cfg with
  | nil => simp [Compounds.accept, Compounds.setUsed, Compounds.passCalls, Config.after_nil]
  | cons c children rest ihc ihr =>
    cases hc : c.channel with
    | none =>
      simp [Compounds.accept, DeactivateVisitor.visit, hc, ihc, ihr, Compounds.setUsed,
        Compounds.passCalls, Config.after_after]
    | some channel =>
      by_cases hm : channel ∈ used
      · simp [Compounds.accept, DeactivateVisitor.visit, hc, ihr, Compounds.setUsed,
          Compounds.passCalls, Config.after_after, DeactivateVisitor.deactivate_loop_eq, hm,
          Compound.deactivate]
      · simp [Compounds.accept, DeactivateVisitor.visit, hc, ihr, Compounds.setUsed,
          Compounds.passCalls, DeactivateVisitor.deactivate_loop_eq, hm]

theorem Config.accept_activate (used : List ChannelPtr) (cfg : Config) :
    cfg.accept (ActivateVisitor.visit used) = cfg.pass true Call.activate used := by
  simp [Config.accept, Compounds.walk_activate, Config.pass]

theorem Config.accept_deactivate (used : List ChannelPtr) (cfg : Config) :
    cfg.accept (DeactivateVisitor.visit used) = cfg.pass false Call.deactivate used := by
  simp [Config.accept, Compounds.walk_deactivate, Config.pass]

theorem Config.pass_channelLayout (value : Bool) (mk : ChannelPtr → Call)
    (used : List ChannelPtr) (cfg : Config) :
    (cfg.pass value mk used).channelLayout = cfg.channelLayout := rfl

theorem Config.pass_calls (value : Bool) (mk : ChannelPtr → Call)
    (used : List ChannelPtr) (cfg : Config) :
    (cfg.pass value mk used).calls = cfg.calls ++ cfg.compounds.passCalls mk used := rfl

theorem Config.pass_compounds (value : Bool) (mk : ChannelPtr → Call)
    (used : List ChannelPtr) (cfg : Config) :
    (cfg.pass value mk used).compounds = cfg.compounds.setUsed value used := rfl

theorem Canvas.mem_usedChannels (cfg : Config) (layout : LayoutPtr) (channel : ChannelPtr)
    (dest : List ChannelPtr) :
    channel ∈ Canvas.usedChannels cfg layout dest ↔
      channel ∈ dest ∧ cfg.channelLayout channel = some layout := by
  induction dest with
  | nil => simp [Canvas.usedChannels]
  | cons d more ih =>
    by_cases h : cfg.channelLayout d = some layout
    · simp only [Canvas.usedChannels, h, if_true, List.mem_cons, ih]
      constructor
      · rintro (e | ⟨h1, h2⟩)
        · subst e; exact ⟨Or.inl rfl, h⟩
        · exact ⟨Or.inr h1, h2⟩
      · rintro ⟨e | h1, h2⟩
        · exact Or.inl e
        · exact Or.inr ⟨h1, h2⟩
    · simp only [Canvas.usedChannels, h, if_false, List.mem_cons, ih]
      constructor
      · rintro ⟨h1, h2⟩; exact ⟨Or.inr h1, h2⟩
      · rintro ⟨e | h1, h2⟩
        · subst e; exact absurd h2 h
        · exact ⟨h1, h2⟩

theorem Canvas.usedChannels_congr (cfg cfg1 : Config) (layout : LayoutPtr)
    (dest : List ChannelPtr) (h : cfg1.channelLayout = cfg.channelLayout) :
    Canvas.usedChannels cfg1 layout dest = Canvas.usedChannels cfg layout dest := by
  induction dest with
  | nil => rfl
  | cons d more ih => simp [Canvas.usedChannels, h, ih]

theorem Canvas.activateUsed_some (layout : LayoutPtr) (segment : Segment) (cfg : Config) :
    Canvas.activateUsed (some layout) segment cfg =
      cfg.pass true Call.activate (Canvas.usedChannels cfg layout segment.destChannels) := by
  simp [Canvas.activateUsed, Config.accept_activate]

theorem Canvas.deactivateUsed_some (layout : LayoutPtr) (segment : Segment) (cfg : Config) :
    Canvas.deactivateUsed (some layout) segment cfg =
      cfg.pass false Call.deactivate (Canvas.usedChannels cfg layout segment.destChannels) := by
  simp [Canvas.deactivateUsed, Config.accept_deactivate]

theorem Canvas.switchLayout_fst (cv : Canvas) (oldIndex newIndex : Nat) (cfg : Config) :
    (cv._switchLayout oldIndex newIndex cfg).1 = cv := by
  unfold Canvas._switchLayout
  split <;> rfl

theorem Canvas.layoutAt_of_le (cv : Canvas) (index : Nat) (h : cv.layouts.length ≤ index) :
    cv.layoutAt index = none := by
  simp [Canvas.layoutAt, h]

/-! ## Lemmas on related forests -/

theorem Compounds.Related.related_refl (R : Bool → Compound → Compound → Prop)
    (hR : ∀ covered c, R covered c c) (covered : Bool) (cs : Compounds) :
    Compounds.Related R covered cs cs := by
  induction cs generalizing covered with
  | nil => simp [Compounds.Related]
  | cons c children rest ihc ihr =>
    simp only [Compounds.Related]
    exact ⟨trivial, hR covered c, ihc _, ihr _⟩

theorem Compounds.Related.related_trans (R : Bool → Compound → Compound → Prop)
    (hR : ∀ covered c1 c2 c3, c2.channel = c1.channel → R covered c1 c2 → R covered c2 c3 →
      R covered c1 c3)
    (covered : Bool) (a b c : Compounds) (hab : Compounds.Related R covered a b)
    (hbc : Compounds.Related R covered b c) : Compounds.Related R covered a c := by
  induction a generalizing covered b c with
  | nil =>
    simp only [Compounds.Related] at hab
    subst hab
    simpa [Compounds.Related] using hbc
  | cons x children rest ihc ihr =>
    cases b with
    | nil => simp [Compounds.Related] at hab
    | cons y children1 rest1 =>
      cases c with
      | nil => simp [Compounds.Related] at hbc
      | cons z children2 rest2 =>
        simp only [Compounds.Related] at hab hbc ⊢
        obtain ⟨h1, h2, h3, h4⟩ := hab
        obtain ⟨k1, k2, k3, k4⟩ := hbc
        rw [h1] at k1 k3
        exact ⟨k1, hR covered x y z h1 h2 k2, ihc _ _ _ h3 k3, ihr _ _ _ h4 k4⟩

theorem Compounds.Related.mono (R S : Bool → Compound → Compound → Prop)
    (hRS : ∀ covered c1 c2, c2.channel = c1.channel → R covered c1 c2 → S covered c1 c2)
    (covered : Bool) (a b : Compounds) (hab : Compounds.Related R covered a b) :
    Compounds.Related S covered a b := by
  induction a generalizing covered b with
  | nil => simpa [Compounds.Related] using hab
  | cons x children rest ihc ihr =>
    cases b with
    | nil => simp [Compounds.Related] at hab
    | cons y children1 rest1 =>
      simp only [Compounds.Related] at hab ⊢
      obtain ⟨h1, h2, h3, h4⟩ := hab
      exact ⟨h1, hRS covered x y h1 h2, ihc _ _ h3, ihr _ _ h4⟩

theorem Compounds.Related.both (R S : Bool → Compound → Compound → Prop)
    (covered : Bool) (a b : Compounds) (hR : Compounds.Related R covered a b)
    (hS : Compounds.Related S covered a b) :
    Compounds.Related (fun cov c c1 => R cov c c1 ∧ S cov c c1) covered a b := by
  induction a generalizing covered b with
  | nil => simpa [Compounds.Related] using hR
  | cons x children rest ihc ihr =>
    cases b with
    | nil => simp [Compounds.Related] at hR
    | cons y children1 rest1 =>
      simp only [Compounds.Related] at hR hS ⊢
      exact ⟨hR.1, ⟨hR.2.1, hS.2.1⟩, ihc _ _ hR.2.2.1 hS.2.2.1, ihr _ _ hR.2.2.2 hS.2.2.2⟩

theorem Compounds.related_setUsed (R : Bool → Compound → Compound → Prop)
    (value : Bool) (used : List ChannelPtr) (covered : Bool)
    (hR : ∀ cov c, R cov c c)
    (hset : ∀ c channel, c.channel = some channel → channel ∈ used →
      R covered c { c with active := value })
    (cs : Compounds) : Compounds.Related R covered cs (cs.setUsed value used) := by
  induction cs with
  | nil => simp [Compounds.Related, Compounds.setUsed]
  | cons c children rest ihc ihr =>
    cases hc : c.channel with
    | none =>
      simp only [Compounds.setUsed, hc, Compounds.Related]
      refine ⟨trivial, hR _ _, ?_, ihr⟩
      simpa using ihc
    | some channel =>
      simp only [Compounds.setUsed, hc, Compounds.Related]
      by_cases hm : channel ∈ used
      · simp only [hm, if_true]
        have hs := hset c channel hc hm
        rw [hc] at hs
        exact ⟨trivial, hs, Compounds.Related.related_refl R hR _ _, ihr⟩
      · simp only [hm, if_false]
        exact ⟨hc, hR _ _, Compounds.Related.related_refl R hR _ _, ihr⟩

theorem Compounds.passCalls_congr (mk : ChannelPtr → Call) (used : List ChannelPtr)
    (covered : Bool) (a b : Compounds)
    (hab : Compounds.Related (fun _ _ _ => True) covered a b) :
    b.passCalls mk used = a.passCalls mk used := by
  induction a generalizing covered b with
  | nil =>
    simp only [Compounds.Related] at hab
    subst hab; rfl
  | cons x children rest ihc ihr =>
    cases b with
    | nil => simp [Compounds.Related] at hab
    | cons y children1 rest1 =>
      simp only [Compounds.Related] at hab
      obtain ⟨h1, -, h3, h4⟩ := hab
      simp only [Compounds.passCalls, h1]
      cases hx : x.channel with
      | none => simp only [ihc _ _ h3, ihr _ _ h4]
      | some channel => simp only [ihr _ _ h4]

theorem Compounds.setUsed_of_passCalls_nil (value : Bool) (mk : ChannelPtr → Call)
    (used : List ChannelPtr) (cs : Compounds) (h : cs.passCalls mk used = []) :
    cs.setUsed value used = cs := by
  induction cs with
  | nil => rfl
  | cons c children rest ihc ihr =>
    cases hc : c.channel with
    | none =>
      simp only [Compounds.passCalls, hc, List.append_eq_nil] at h
      simp [Compounds.setUsed, hc, ihc h.1, ihr h.2]
    | some channel =>
      simp only [Compounds.passCalls, hc, List.append_eq_nil] at h
      by_cases hm : channel ∈ used
      · simp [hm] at h
      · simp [Compounds.setUsed, hc, hm, ihr h.2]

theorem Compounds.mem_passCalls (mk : ChannelPtr → Call) (used : List ChannelPtr)
    (cs : Compounds) (call : Call) (h : call ∈ cs.passCalls mk used) :
    call = Call.postNeedsFinish ∨ ∃ channel, channel ∈ used ∧ call = mk channel := by
  induction cs with
  | nil => simp [Compounds.passCalls] at h
  | cons c children rest ihc ihr =>
    cases hc : c.channel with
    | none =>
      simp only [Compounds.passCalls, hc, List.mem_append] at h
      rcases h with h | h
      · exact ihc h
      · exact ihr h
    | some channel =>
      simp only [Compounds.passCalls, hc, List.mem_append] at h
      rcases h with h | h
      · by_cases hm : channel ∈ used
        · simp only [hm, if_true, List.mem_cons, List.mem_singleton] at h
          rcases h with h | h | h
          · exact Or.inr ⟨channel, hm, h⟩
          · exact Or.inl h
          · simp at h
        · simp [hm] at h
      · exact ihr h

theorem Compounds.postNeedsFinish_mem_passCalls (mk : ChannelPtr → Call)
    (used : List ChannelPtr) (cs : Compounds) (h : cs.passCalls mk used ≠ []) :
    Call.postNeedsFinish ∈ cs.passCalls mk used := by
  induction cs with
  | nil => simp [Compounds.passCalls] at h
  | cons c children rest ihc ihr =>
    cases hc : c.channel with
    | none =>
      simp only [Compounds.passCalls, hc, List.mem_append] at h ⊢
      by_cases h1 : children.passCalls mk used = []
      · right
        apply ihr
        intro h2
        exact h (by simp [h1, h2])
      · exact Or.inl (ihc h1)
    | some channel =>
      simp only [Compounds.passCalls, hc, List.mem_append] at h ⊢
      by_cases hm : channel ∈ used
      · left; simp [hm]
      · right
        apply ihr
        intro h2
        exact h (by simp [hm, h2])

theorem Compounds.Related.covered_refl (R : Bool → Compound → Compound → Prop)
    (hR : ∀ c, R true c c) (cs : Compounds) : Compounds.Related R true cs cs := by
  induction cs with
  | nil => simp [Compounds.Related]
  | cons c children rest ihc ihr =>
    simp only [Compounds.Related]
    exact ⟨trivial, hR c, by simpa using ihc, ihr⟩

theorem Compounds.related_reached (mk : ChannelPtr → Call) (value : Bool)
    (used : List ChannelPtr) (total : List Call) (cs : Compounds)
    (hsub : cs.passCalls mk used <:+: total) :
    Compounds.Related
      (fun covered c c1 => covered = false → ∀ channel, c.channel = some channel →
        channel ∈ used → c1.active = value ∧ [mk channel, Call.postNeedsFinish] <:+: total)
      false cs (cs.setUsed value used) := by
  induction cs with
  | nil => simp [Compounds.Related, Compounds.setUsed]
  | cons c children rest ihc ihr =>
    cases hc : c.channel with
    | none =>
      simp only [Compounds.passCalls, hc] at hsub
      have hk := ihc ((List.prefix_append _ _).isInfix.trans hsub)
      have hr := ihr ((List.suffix_append _ _).isInfix.trans hsub)
      simp only [Compounds.setUsed, hc, Compounds.Related]
      refine ⟨trivial, ?_, by simpa using hk, hr⟩
      intro _ channel hch
      cases hch
    | some channel =>
      simp only [Compounds.passCalls, hc] at hsub
      have hr := ihr ((List.suffix_append _ _).isInfix.trans hsub)
      have hkids : Compounds.Related
          (fun covered c c1 => covered = false → ∀ channel, c.channel = some channel →
            channel ∈ used → c1.active = value ∧ [mk channel, Call.postNeedsFinish] <:+: total)
          true children children :=
        Compounds.Related.covered_refl _ (fun _ hcov => Bool.noConfusion hcov) children
      simp only [Compounds.setUsed, hc, Compounds.Related]
      by_cases hm : channel ∈ used
      · simp only [hm, if_true] at hsub ⊢
        refine ⟨trivial, ?_, by simpa using hkids, hr⟩
        intro _ ch hch _
        cases hch
        exact ⟨trivial, (List.prefix_append _ _).isInfix.trans hsub⟩
      · simp only [hm, if_false]
        refine ⟨hc, ?_, by simpa using hkids, hr⟩
        intro _ ch hch hmem
        cases hch
        exact absurd hmem hm

/-! ## Lemmas on the loop over the segments -/

theorem Config.Step.step_refl (R : Bool → Compound → Compound → Prop) (P : Call → Prop)
    (hR : ∀ covered c, R covered c c) (cfg : Config) : Config.Step R P cfg cfg :=
  ⟨rfl, Compounds.Related.related_refl R hR _ _, [], by simp, by simp⟩

theorem Config.Step.step_trans (R : Bool → Compound → Compound → Prop) (P : Call → Prop)
    (hR : ∀ covered c1 c2 c3, c2.channel = c1.channel → R covered c1 c2 → R covered c2 c3 →
      R covered c1 c3)
    (a b c : Config) (hab : Config.Step R P a b) (hbc : Config.Step R P b c) :
    Config.Step R P a c := by
  obtain ⟨h1, h2, m1, h3, h4⟩ := hab
  obtain ⟨k1, k2, m2, k3, k4⟩ := hbc
  refine ⟨k1.trans h1, Compounds.Related.related_trans R hR _ _ _ _ h2 k2, m1 ++ m2, ?_, ?_⟩
  · rw [k3, h3, List.append_assoc]
  · intro call hcall
    rcases List.mem_append.mp hcall with h | h
    · exact h4 call h
    · exact k4 call h

theorem Config.Step.of_pass (R : Bool → Compound → Compound → Prop) (P : Call → Prop)
    (value : Bool) (mk : ChannelPtr → Call) (used : List ChannelPtr)
    (hR : ∀ covered c, R covered c c)
    (hset : ∀ c channel, c.channel = some channel → channel ∈ used →
      R false c { c with active := value } ∧ P (mk channel))
    (hP : P Call.postNeedsFinish) (cfg : Config) :
    Config.Step R P cfg (cfg.pass value mk used) := by
  refine ⟨rfl, ?_, cfg.compounds.passCalls mk used, rfl, ?_⟩
  · exact Compounds.related_setUsed R value used false hR
      (fun c channel hc hm => (hset c channel hc hm).1) cfg.compounds
  · intro call hcall
    rcases Compounds.mem_passCalls mk used cfg.compounds call hcall with h | ⟨channel, hm, h⟩
    · rw [h]; exact hP
    · rw [h]
      exact (hset { channel := some channel, active := value } channel rfl hm).2

theorem Canvas.step_switchSegment (R : Bool → Compound → Compound → Prop) (P : Call → Prop)
    (oldLayout newLayout : Option LayoutPtr) (f : ChannelPtr → Option LayoutPtr)
    (hrefl : ∀ covered c, R covered c c)
    (htrans : ∀ covered c1 c2 c3, c2.channel = c1.channel → R covered c1 c2 →
      R covered c2 c3 → R covered c1 c3)
    (hact : ∀ layout, newLayout = some layout → ∀ c channel, c.channel = some channel →
      f channel = some layout → R false c { c with active := true } ∧ P (Call.activate channel))
    (hdeact : ∀ layout, oldLayout = some layout → ∀ c channel, c.channel = some channel →
      f channel = some layout →
      R false c { c with active := false } ∧ P (Call.deactivate channel))
    (hP : P Call.postNeedsFinish) (cfg : Config) (hf : cfg.channelLayout = f)
    (segment : Segment) :
    Config.Step R P cfg (Canvas.switchSegment oldLayout newLayout cfg segment) := by
  have h1 : Config.Step R P cfg (Canvas.activateUsed newLayout segment cfg) := by
    cases hn : newLayout with
    | none => exact Config.Step.step_refl R P hrefl cfg
    | some layout =>
      rw [Canvas.activateUsed_some]
      apply Config.Step.of_pass R P true Call.activate _ hrefl _ hP
      intro c channel hc hm
      rw [Canvas.mem_usedChannels, hf] at hm
      exact hact layout hn c channel hc hm.2
  have h2 : Config.Step R P (Canvas.activateUsed newLayout segment cfg)
      (Canvas.switchSegment oldLayout newLayout cfg segment) := by
    unfold Canvas.switchSegment
    cases ho : oldLayout with
    | none => exact Config.Step.step_refl R P hrefl _
    | some layout =>
      rw [Canvas.deactivateUsed_some]
      apply Config.Step.of_pass R P false Call.deactivate _ hrefl _ hP
      intro c channel hc hm
      rw [Canvas.mem_usedChannels, h1.1, hf] at hm
      exact hdeact layout ho c channel hc hm.2
  exact Config.Step.step_trans R P htrans _ _ _ h1 h2

theorem Canvas.step_foldl (R : Bool → Compound → Compound → Prop) (P : Call → Prop)
    (oldLayout newLayout : Option LayoutPtr) (f : ChannelPtr → Option LayoutPtr)
    (hrefl : ∀ covered c, R covered c c)
    (htrans : ∀ covered c1 c2 c3, c2.channel = c1.channel → R covered c1 c2 →
      R covered c2 c3 → R covered c1 c3)
    (hact : ∀ layout, newLayout = some layout → ∀ c channel, c.channel = some channel →
      f channel = some layout → R false c { c with active := true } ∧ P (Call.activate channel))
    (hdeact : ∀ layout, oldLayout = some layout → ∀ c channel, c.channel = some channel →
      f channel = some layout →
      R false c { c with active := false } ∧ P (Call.deactivate channel))
    (hP : P Call.postNeedsFinish) (segments : List Segment) (cfg : Config)
    (hf : cfg.channelLayout = f) :
    Config.Step R P cfg
      (segments.foldl (Canvas.switchSegment oldLayout newLayout) cfg) := by
  induction segments generalizing cfg with
  | nil => exact Config.Step.step_refl R P hrefl cfg
  | cons segment more ih =>
    have h1 := Canvas.step_switchSegment R P oldLayout newLayout f hrefl htrans hact hdeact hP
      cfg hf segment
    have h2 := ih (Canvas.switchSegment oldLayout newLayout cfg segment) (h1.1.trans hf)
    exact Config.Step.step_trans R P htrans _ _ _ h1 h2

theorem Canvas.step_switchLayout (R : Bool → Compound → Compound → Prop) (P : Call → Prop)
    (cv : Canvas) (oldIndex newIndex : Nat) (cfg : Config)
    (hrefl : ∀ covered c, R covered c c)
    (htrans : ∀ covered c1 c2 c3, c2.channel = c1.channel → R covered c1 c2 →
      R covered c2 c3 → R covered c1 c3)
    (hact : ∀ layout, cv.layoutAt newIndex = some layout → ∀ c channel,
      c.channel = some channel → cfg.channelLayout channel = some layout →
      R false c { c with active := true } ∧ P (Call.activate channel))
    (hdeact : ∀ layout, cv.layoutAt oldIndex = some layout → ∀ c channel,
      c.channel = some channel → cfg.channelLayout channel = some layout →
      R false c { c with active := false } ∧ P (Call.deactivate channel))
    (hP : P Call.postNeedsFinish) :
    Config.Step R P cfg (cv._switchLayout oldIndex newIndex cfg).2 := by
  unfold Canvas._switchLayout
  split
  · exact Config.Step.step_refl R P hrefl cfg
  · exact Canvas.step_foldl R P _ _ cfg.channelLayout hrefl htrans hact hdeact hP _ cfg rfl

theorem Config.Step.drop_calls (R : Bool → Compound → Compound → Prop) (P : Call → Prop)
    (cfg cfg1 : Config) (h : Config.Step R P cfg cfg1) :
    ∀ call ∈ cfg1.calls.drop cfg.calls.length, P call := by
  obtain ⟨-, -, made, h3, h4⟩ := h
  rw [h3, List.drop_left]
  exact h4

theorem Canvas.switchSegment_none (cfg : Config) (segment : Segment) :
    Canvas.switchSegment none none cfg segment = cfg := rfl

theorem Canvas.foldl_switchSegment_none (segments : List Segment) (cfg : Config) :
    segments.foldl (Canvas.switchSegment none none) cfg = cfg := by
  induction segments with
  | nil => rfl
  | cons segment more ih => simpa [List.foldl, Canvas.switchSegment_none] using ih

theorem Canvas.switchSegment_calls (oldLayout newLayout : LayoutPtr) (cfg : Config)
    (segment : Segment) :
    (Canvas.switchSegment (some oldLayout) (some newLayout) cfg segment).calls =
      cfg.calls ++ Canvas.segmentCalls cfg oldLayout newLayout segment := by
  unfold Canvas.switchSegment
  rw [Canvas.activateUsed_some, Canvas.deactivateUsed_some, Config.pass_calls, Config.pass_calls,
    Config.pass_compounds, List.append_assoc]
  rw [Canvas.usedChannels_congr cfg _ oldLayout segment.destChannels
    (Config.pass_channelLayout _ _ _ cfg)]
  rw [Compounds.passCalls_congr Call.deactivate _ false cfg.compounds _
    (Compounds.related_setUsed (fun _ _ _ => True) true _ false (fun _ _ => trivial)
      (fun _ _ _ _ => trivial) cfg.compounds)]
  rfl

theorem Canvas.segmentCalls_congr (oldLayout newLayout : LayoutPtr) (cfg cfg1 : Config)
    (h : Config.Step (fun _ _ _ => True) (fun _ => True) cfg cfg1) (segment : Segment) :
    Canvas.segmentCalls cfg1 oldLayout newLayout segment =
      Canvas.segmentCalls cfg oldLayout newLayout segment := by
  unfold Canvas.segmentCalls
  rw [Canvas.usedChannels_congr cfg cfg1 _ _ h.1, Canvas.usedChannels_congr cfg cfg1 _ _ h.1,
    Compounds.passCalls_congr _ _ false _ _ h.2.1, Compounds.passCalls_congr _ _ false _ _ h.2.1]

theorem Canvas.foldl_calls (oldLayout newLayout : LayoutPtr) (segments : List Segment)
    (cfg : Config) :
    (segments.foldl (Canvas.switchSegment (some oldLayout) (some newLayout)) cfg).calls =
      cfg.calls ++ segments.flatMap (Canvas.segmentCalls cfg oldLayout newLayout) := by
  induction segments generalizing cfg with
  | nil => simp
  | cons segment more ih =>
    have hs : Config.Step (fun _ _ _ => True) (fun _ => True) cfg
        (Canvas.switchSegment (some oldLayout) (some newLayout) cfg segment) :=
      Canvas.step_switchSegment _ _ _ _ cfg.channelLayout (fun _ _ => trivial)
        (fun _ _ _ _ _ _ _ => trivial) (fun _ _ _ _ _ _ => ⟨trivial, trivial⟩)
        (fun _ _ _ _ _ _ => ⟨trivial, trivial⟩) trivial cfg rfl segment
    have hc : Canvas.segmentCalls
        (Canvas.switchSegment (some oldLayout) (some newLayout) cfg segment) oldLayout newLayout =
        Canvas.segmentCalls cfg oldLayout newLayout :=
      funext (Canvas.segmentCalls_congr oldLayout newLayout cfg _ hs)
    rw [List.foldl_cons, ih, hc, Canvas.switchSegment_calls, List.flatMap_cons,
      List.append_assoc]

theorem Call.activationsFirst_of_no_activate (calls : List Call)
    (h : ∀ call ∈ calls, ∀ channel, call ≠ Call.activate channel) :
    Call.activationsFirst calls = true := by
  induction calls with
  | nil => rfl
  | cons call more ih =>
    have hm : ∀ x ∈ more, ∀ channel, x ≠ Call.activate channel :=
      fun x hx => h x (List.mem_cons_of_mem _ hx)
    cases call with
    | activate channel => exact absurd rfl (h _ (List.mem_cons_self _ _) channel)
    | deactivate channel =>
      simp only [Call.activationsFirst, List.all_eq_true]
      intro x hx
      cases x with
      | activate c => exact absurd rfl (hm _ hx c)
      | deactivate c => rfl
      | postNeedsFinish => rfl
    | postNeedsFinish => exact ih hm

theorem Call.activationsFirst_append (first second : List Call)
    (h1 : ∀ call ∈ first, ∀ channel, call ≠ Call.deactivate channel)
    (h2 : ∀ call ∈ second, ∀ channel, call ≠ Call.activate channel) :
    Call.activationsFirst (first ++ second) = true := by
  induction first with
  | nil => exact Call.activationsFirst_of_no_activate second h2
  | cons call more ih =>
    have hm : ∀ x ∈ more, ∀ channel, x ≠ Call.deactivate channel :=
      fun x hx => h1 x (List.mem_cons_of_mem _ hx)
    cases call with
    | activate channel => exact ih hm
    | deactivate channel => exact absurd rfl (h1 _ (List.mem_cons_self _ _) channel)
    | postNeedsFinish => exact ih hm

theorem Config.Raised.raised_trans (a b c : Config) (hab : Config.Raised a b)
    (hbc : Config.Raised b c) : Config.Raised a c := by
  rcases hab with hab | ⟨_, h2⟩
  · rw [hab] at hbc; exact hbc
  · rcases hbc with hbc | ⟨k1, k2⟩
    · rw [hbc]; exact Or.inr ⟨by assumption, h2⟩
    · exact Or.inr ⟨k1, Nat.lt_trans h2 k2⟩

theorem Config.Raised.of_pass_raised (value : Bool) (mk : ChannelPtr → Call) (used : List ChannelPtr)
    (cfg : Config) : Config.Raised cfg (cfg.pass value mk used) := by
  by_cases hp : cfg.compounds.passCalls mk used = []
  · left
    unfold Config.pass
    rw [Compounds.setUsed_of_passCalls_nil value mk used cfg.compounds hp, hp,
      Config.after_nil]
  · right
    constructor
    · cases hm : cfg.compounds.passCalls mk used with
      | nil => exact absurd hm hp
      | cons x more => simp [Config.pass, Config.after, hm]
    · rw [Config.pass_calls, List.count_append]
      have := List.count_pos_iff.mpr
        (Compounds.postNeedsFinish_mem_passCalls mk used cfg.compounds hp)
      omega

theorem Canvas.raised_switchSegment (oldLayout newLayout : Option LayoutPtr) (cfg : Config)
    (segment : Segment) :
    Config.Raised cfg (Canvas.switchSegment oldLayout newLayout cfg segment) := by
  have h1 : Config.Raised cfg (Canvas.activateUsed newLayout segment cfg) := by
    cases newLayout with
    | none => exact Or.inl rfl
    | some layout =>
      rw [Canvas.activateUsed_some]
      exact Config.Raised.of_pass_raised _ _ _ cfg
  have h2 : Config.Raised (Canvas.activateUsed newLayout segment cfg)
      (Canvas.switchSegment oldLayout newLayout cfg segment) := by
    unfold Canvas.switchSegment
    cases oldLayout with
    | none => exact Or.inl rfl
    | some layout =>
      rw [Canvas.deactivateUsed_some]
      exact Config.Raised.of_pass_raised _ _ _ _
  exact Config.Raised.raised_trans _ _ _ h1 h2

theorem Canvas.raised_foldl (oldLayout newLayout : Option LayoutPtr)
    (segments : List Segment) (cfg : Config) :
    Config.Raised cfg (segments.foldl (Canvas.switchSegment oldLayout newLayout) cfg) := by
  induction segments generalizing cfg with
  | nil => exact Or.inl rfl
  | cons segment more ih =>
    exact Config.Raised.raised_trans _ _ _
      (Canvas.raised_switchSegment oldLayout newLayout cfg segment) (ih _)

/-! ## The canvas state machine and the layout switch -/

/-- C1: `_switchLayout( i, i )` does nothing, for every canvas, config and index
`i`, valid or not: the canvas (its state included) and the config (every
compound with its active flag, the needs-finish flag and the record of calls,
to which no `postNeedsFinish` is added) come back as they were. -/
theorem switchLayout_same_index_noop (cv : Canvas) (i : Nat) (cfg : Config) :
    cv._switchLayout i i cfg = (cv, cfg) := by
  simp [Canvas._switchLayout]

/-- C2: a newly constructed canvas is stopped; `init()` leaves the canvas
running (whatever its state was, so in particular when it was stopped);
`exit()` called on a running canvas leaves it stopped; and for every canvas
`init()` followed by `exit()` ends in the stopped state. -/
theorem canvas_init_exit_cycle (EQ_ID_NONE : Nat) (layouts : List (Option LayoutPtr))
    (segments : List Segment) (activeLayout : Nat) (cv cv2 : Canvas) (cfg cfg2 : Config)
    (h2 : cv2._state = State.STATE_RUNNING) :
    (Canvas.new layouts segments activeLayout)._state = State.STATE_STOPPED ∧
      (cv.init EQ_ID_NONE cfg).1._state = State.STATE_RUNNING ∧
      (cv2.exit EQ_ID_NONE cfg2).1._state = State.STATE_STOPPED ∧
      ((cv.init EQ_ID_NONE cfg).1.exit EQ_ID_NONE (cv.init EQ_ID_NONE cfg).2).1._state =
        State.STATE_STOPPED := by
  have hinit : ∀ (c : Canvas) (g : Config),
      (c.init EQ_ID_NONE g).1._state = State.STATE_RUNNING := by
    intro c g
    simp [Canvas.init]
  have hexit : ∀ (c : Canvas) (g : Config), c._state = State.STATE_RUNNING →
      (c.exit EQ_ID_NONE g).1._state = State.STATE_STOPPED := by
    intro c g hc
    have h1 := Canvas.switchLayout_fst c c.activeLayout EQ_ID_NONE g
    simp only [Canvas.exit]
    rw [h1, if_pos hc]
  exact ⟨rfl, hinit cv cfg, hexit cv2 cfg2 h2, hexit _ _ (hinit cv cfg)⟩

/-- Witness of C2: a stopped and a running canvas without layouts or segments. -/
theorem canvas_init_exit_cycle_witness :
    (Canvas.new [] [] 0)._state = State.STATE_STOPPED ∧
      ((Canvas.new [] [] 0).init 7 ⟨Compounds.nil, fun _ => none, false, []⟩).1._state =
        State.STATE_RUNNING ∧
      ((Canvas.mk [] [] 0 State.STATE_RUNNING).exit 7
        ⟨Compounds.nil, fun _ => none, false, []⟩).1._state = State.STATE_STOPPED ∧
      (((Canvas.new [] [] 0).init 7 ⟨Compounds.nil, fun _ => none, false, []⟩).1.exit 7
        ((Canvas.new [] [] 0).init 7 ⟨Compounds.nil, fun _ => none, false, []⟩).2).1._state =
        State.STATE_STOPPED :=
  canvas_init_exit_cycle 7 [] [] 0 (Canvas.new [] [] 0)
    (Canvas.mk [] [] 0 State.STATE_RUNNING) ⟨Compounds.nil, fun _ => none, false, []⟩
    ⟨Compounds.nil, fun _ => none, false, []⟩ rfl

/-- C3: `postDelete()` makes the state of a canvas `STATE_DELETE` (whatever it
was, so in particular on a running canvas);
`exit()` called in `STATE_DELETE` leaves it there; and after a `postDelete()`
every sequence of `exit()`, `activateLayout()` and `postDelete()` calls ends in
`STATE_DELETE`, where the assertion of `exit()` holds. As this holds for every
sequence, hence for every prefix of one, the state is never `STATE_STOPPED`
again. -/
theorem canvas_delete_is_final (EQ_ID_NONE : Nat) (cv cv2 : Canvas) (cfg cfg2 : Config)
    (ops : List Op) (h2 : cv2._state = State.STATE_DELETE) :
    (cv.postDelete cfg).1._state = State.STATE_DELETE ∧
      (cv2.exit EQ_ID_NONE cfg2).1._state = State.STATE_DELETE ∧
      (Op.run EQ_ID_NONE ops (cv.postDelete cfg)).1._state = State.STATE_DELETE ∧
      (Op.run EQ_ID_NONE ops (cv.postDelete cfg)).1.exitAsserted ∧
      (Op.run EQ_ID_NONE ops (cv.postDelete cfg)).1._state ≠ State.STATE_STOPPED := by
  have hexit : ∀ (c : Canvas) (g : Config), c._state = State.STATE_DELETE →
      (c.exit EQ_ID_NONE g).1._state = State.STATE_DELETE := by
    intro c g hc
    have h1 := Canvas.switchLayout_fst c c.activeLayout EQ_ID_NONE g
    simp only [Canvas.exit]
    rw [h1, if_neg (by rw [hc]; decide)]
    exact hc
  have hstep : ∀ (op : Op) (s : Canvas × Config), s.1._state = State.STATE_DELETE →
      (Op.apply EQ_ID_NONE s op).1._state = State.STATE_DELETE := by
    intro op s hs
    cases op with
    | exit => exact hexit s.1 s.2 hs
    | activateLayout index =>
      simp only [Op.apply, Canvas.activateLayout]
      rw [if_neg (by rw [hs]; decide)]
      exact hs
    | postDelete => rfl
  have hrun : ∀ (l : List Op) (s : Canvas × Config), s.1._state = State.STATE_DELETE →
      (Op.run EQ_ID_NONE l s).1._state = State.STATE_DELETE := by
    intro l
    induction l with
    | nil => intro s hs; exact hs
    | cons op more ih =>
      intro s hs
      exact ih _ (hstep op s hs)
  have hend := hrun ops (cv.postDelete cfg) rfl
  refine ⟨rfl, hexit cv2 cfg2 h2, hend, Or.inr hend, ?_⟩
  rw [hend]
  decide

/-- Witness of C3: a running canvas that is deleted, then told to exit, to
activate a layout and to exit again. -/
theorem canvas_delete_is_final_witness :
    (Canvas.mk [] [] 0 State.STATE_DELETE)._state = State.STATE_DELETE ∧
      (Op.run 7 [Op.exit, Op.activateLayout 0, Op.exit]
        ((Canvas.mk [some 10] [] 0 State.STATE_RUNNING).postDelete
          ⟨Compounds.nil, fun _ => none, false, []⟩)).1._state ≠ State.STATE_STOPPED :=
  ⟨rfl, (canvas_delete_is_final 7 (Canvas.mk [some 10] [] 0 State.STATE_RUNNING)
    (Canvas.mk [] [] 0 State.STATE_DELETE) ⟨Compounds.nil, fun _ => none, false, []⟩
    ⟨Compounds.nil, fun _ => none, false, []⟩ [Op.exit, Op.activateLayout 0, Op.exit]
    rfl).2.2.2.2⟩

/-- C4: on a canvas that is stopped or being deleted `activateLayout( index )`
changes nothing: the canvas and the config (compounds, needs-finish flag,
record of calls) come back as they were. On a running canvas it is exactly
`_switchLayout( getActiveLayoutIndex(), index )`. -/
theorem activateLayout_only_when_running (cv cv2 : Canvas) (index : Nat) (cfg cfg2 : Config)
    (h : cv._state = State.STATE_STOPPED ∨ cv._state = State.STATE_DELETE)
    (h2 : cv2._state = State.STATE_RUNNING) :
    cv.activateLayout index cfg = (cv, cfg) ∧
      cv2.activateLayout index cfg2 = cv2._switchLayout cv2.activeLayout index cfg2 := by
  constructor
  · unfold Canvas.activateLayout
    rw [if_neg]
    rcases h with h | h <;> rw [h] <;> decide
  · unfold Canvas.activateLayout
    rw [if_pos h2]

/-- Witness of C4: a stopped canvas and a running canvas, each with two layouts
and one segment, over a config with one inactive compound. -/
theorem activateLayout_only_when_running_witness :
    (Canvas.mk [some 10, some 11] [⟨[1]⟩] 0 State.STATE_STOPPED).activateLayout 1
        ⟨Compounds.cons ⟨some 1, false⟩ Compounds.nil Compounds.nil,
          fun _ => some 11, false, []⟩ =
      (Canvas.mk [some 10, some 11] [⟨[1]⟩] 0 State.STATE_STOPPED,
        ⟨Compounds.cons ⟨some 1, false⟩ Compounds.nil Compounds.nil,
          fun _ => some 11, false, []⟩) ∧
      (Canvas.mk [some 10, some 11] [⟨[1]⟩] 0 State.STATE_RUNNING).activateLayout 1
        ⟨Compounds.cons ⟨some 1, false⟩ Compounds.nil Compounds.nil,
          fun _ => some 11, false, []⟩ =
      (Canvas.mk [some 10, some 11] [⟨[1]⟩] 0 State.STATE_RUNNING)._switchLayout 0 1
        ⟨Compounds.cons ⟨some 1, false⟩ Compounds.nil Compounds.nil,
          fun _ => some 11, false, []⟩ :=
  activateLayout_only_when_running
    (Canvas.mk [some 10, some 11] [⟨[1]⟩] 0 State.STATE_STOPPED)
    (Canvas.mk [some 10, some 11] [⟨[1]⟩] 0 State.STATE_RUNNING) 1
    ⟨Compounds.cons ⟨some 1, false⟩ Compounds.nil Compounds.nil, fun _ => some 11, false, []⟩
    ⟨Compounds.cons ⟨some 1, false⟩ Compounds.nil Compounds.nil, fun _ => some 11, false, []⟩
    (Or.inl rfl) rfl

/-- C5: in `_switchLayout` an index that is not below the number of layouts
resolves to no layout; the lookup is total and reads the vector only below its
length. If the new index `j` is out of range no compound is activated (no flag
goes up and no `activate` call is made); if the old index `j` is out of range no
compound is deactivated; and if both indices `j` and `k` are out of range and
differ, the canvas and the config come back as they were. -/
theorem switchLayout_index_out_of_range (cv : Canvas) (cfg : Config) (i j k : Nat)
    (hj : cv.layouts.length ≤ j) (hk : cv.layouts.length ≤ k) (hjk : j ≠ k) :
    cv.layoutAt j = none ∧
      (Compounds.Related (fun _ c c1 => c1.active = true → c.active = true) false
          cfg.compounds (cv._switchLayout i j cfg).2.compounds ∧
        ∀ channel, Call.activate channel ∉
          (cv._switchLayout i j cfg).2.calls.drop cfg.calls.length) ∧
      (Compounds.Related (fun _ c c1 => c1.active = false → c.active = false) false
          cfg.compounds (cv._switchLayout j i cfg).2.compounds ∧
        ∀ channel, Call.deactivate channel ∉
          (cv._switchLayout j i cfg).2.calls.drop cfg.calls.length) ∧
      cv._switchLayout j k cfg = (cv, cfg) := by
  have hnj := Canvas.layoutAt_of_le cv j hj
  have hnk := Canvas.layoutAt_of_le cv k hk
  refine ⟨hnj, ?_, ?_, ?_⟩
  · have hs := Canvas.step_switchLayout
      (fun _ c c1 => c1.active = true → c.active = true)
      (fun call => ∀ channel, call ≠ Call.activate channel) cv i j cfg
      (fun _ _ hc => hc) (fun _ _ _ _ _ h12 h23 hc => h12 (h23 hc))
      (fun layout hl => by rw [hnj] at hl; cases hl)
      (fun _ _ _ _ _ _ => ⟨fun hc => Bool.noConfusion hc, fun _ hc => Call.noConfusion hc⟩)
      (fun _ hc => by cases hc)
    refine ⟨hs.2.1, fun channel hmem => ?_⟩
    exact Config.Step.drop_calls _ _ _ _ hs _ hmem channel rfl
  · have hs := Canvas.step_switchLayout
      (fun _ c c1 => c1.active = false → c.active = false)
      (fun call => ∀ channel, call ≠ Call.deactivate channel) cv j i cfg
      (fun _ _ hc => hc) (fun _ _ _ _ _ h12 h23 hc => h12 (h23 hc))
      (fun _ _ _ _ _ _ => ⟨fun hc => Bool.noConfusion hc, fun _ hc => Call.noConfusion hc⟩)
      (fun layout hl => by rw [hnj] at hl; cases hl)
      (fun _ hc => by cases hc)
    refine ⟨hs.2.1, fun channel hmem => ?_⟩
    exact Config.Step.drop_calls _ _ _ _ hs _ hmem channel rfl
  · unfold Canvas._switchLayout
    rw [if_neg hjk, hnj, hnk, Canvas.foldl_switchSegment_none]

/-- Witness of C5: the canvas with two layouts and the indices 0, 5 and 6. -/
theorem switchLayout_index_out_of_range_witness :
    Canvas.twoSegments.layouts.length ≤ 5 ∧ Canvas.twoSegments.layouts.length ≤ 6 ∧
      (5 : Nat) ≠ 6 ∧
      Canvas.twoSegments._switchLayout 5 6 Config.twoRoots =
        (Canvas.twoSegments, Config.twoRoots) :=
  ⟨by decide, by decide, by decide,
    (switchLayout_index_out_of_range Canvas.twoSegments Config.twoRoots 0 5 6
      (by decide) (by decide) (by decide)).2.2.2⟩

/-- Counterexample to C6 as stated: the visitor holds channel 2, whose compound
sits below the compound of channel 1. The visit of the upper compound returns
`TRAVERSE_PRUNE`, the lower one is never visited: it stays inactive and no
`postNeedsFinish` is raised. -/
theorem activation_skips_compound_below_channel :
    (Config.nested.accept (ActivateVisitor.visit [2])).compounds.flags = [false, false] ∧
      (Config.nested.accept (ActivateVisitor.visit [2])).needsFinish = false ∧
      (Config.nested.accept (ActivateVisitor.visit [2])).calls = [] ∧
      ¬ Compounds.Related
        (fun _ c c1 => ∀ channel, c.channel = some channel → channel ∈ [2] → c1.active = true)
        false Config.nested.compounds
        (Config.nested.accept (ActivateVisitor.visit [2])).compounds := by
  refine ⟨by decide, by decide, by decide, ?_⟩
  have h : (Config.nested.accept (ActivateVisitor.visit [2])).compounds = Compounds.nested := by
    decide
  rw [h]
  simp [Config.nested, Compounds.nested, Compounds.Related]

/-- C6, amended: after the `ActivateVisitor` has walked the forest of a config,
every compound whose destination channel is held by the visitor and that has no
ancestor with a destination channel is active, the call `activate()` on it
followed by `postNeedsFinish()` is among the calls made during the walk, and
the needs-finish flag is up. A compound below a compound with a destination
channel is not visited: it keeps its flag. -/
theorem activation_reaches_uncovered_compounds (used : List ChannelPtr) (cfg : Config) :
    Compounds.Related
      (fun covered c c1 =>
        (covered = false → ∀ channel, c.channel = some channel → channel ∈ used →
          c1.active = true ∧
            (cfg.accept (ActivateVisitor.visit used)).needsFinish = true ∧
            [Call.activate channel, Call.postNeedsFinish] <:+:
              (cfg.accept (ActivateVisitor.visit used)).calls.drop cfg.calls.length) ∧
        (covered = true → c1.active = c.active))
      false cfg.compounds (cfg.accept (ActivateVisitor.visit used)).compounds := by
  rw [Config.accept_activate, Config.pass_compounds, Config.pass_calls, List.drop_left]
  have h := Compounds.related_reached Call.activate true used
    (cfg.compounds.passCalls Call.activate used) cfg.compounds (List.infix_refl _)
  have hk : Compounds.Related (fun covered c c1 => covered = true → c1.active = c.active)
      false cfg.compounds (cfg.compounds.setUsed true used) :=
    Compounds.related_setUsed _ true used false (fun _ _ _ => rfl)
      (fun _ _ _ _ hcov => Bool.noConfusion hcov) cfg.compounds
  refine Compounds.Related.mono _ _ ?_ false _ _ (Compounds.Related.both _ _ _ _ _ h hk)
  intro covered c1 c2 _ hR
  refine ⟨?_, hR.2⟩
  intro hcov channel hc hm
  obtain ⟨h1, h2⟩ := hR.1 hcov channel hc hm
  refine ⟨h1, ?_, h2⟩
  have hne : cfg.compounds.passCalls Call.activate used ≠ [] := by
    intro he
    rw [he] at h2
    have := h2.length_le
    simp at this
  cases hp : cfg.compounds.passCalls Call.activate used with
  | nil => exact absurd hp hne
  | cons x more => simp [Config.pass, Config.after, hp]

/-- Counterexample to C7 as stated: a canvas with two segments and both layouts
present. The loop handles the first segment entirely (its deactivation
included) before the second one, so the compound of channel 1 is deactivated
before the compound of channel 2 is activated. -/
theorem deactivation_precedes_later_activation :
    Canvas.twoSegments.layoutAt 0 = some 10 ∧ Canvas.twoSegments.layoutAt 1 = some 11 ∧
      (Canvas.twoSegments._switchLayout 0 1 Config.twoRoots).2.calls =
        [Call.deactivate 1, Call.postNeedsFinish, Call.activate 2, Call.postNeedsFinish] ∧
      Call.activationsFirst (Canvas.twoSegments._switchLayout 0 1 Config.twoRoots).2.calls =
        false := by
  refine ⟨by decide, by decide, by decide, by decide⟩

/-- C7, amended: in `_switchLayout( old, new )` with both layouts present the
segments are handled one after the other, and for each segment the activation
pass for the channels of the new layout is performed before the deactivation
pass for the channels of the old layout: the calls made are, segment by
segment, those of the activation pass followed by those of the deactivation
pass, and within one segment every `activate` comes before every `deactivate`.
When the two layouts are different objects, no channel is matched by both
passes. -/
theorem switchLayout_activates_first_per_segment (cv : Canvas) (oldIndex newIndex : Nat)
    (cfg : Config) (oldLayout newLayout : LayoutPtr) (hne : oldIndex ≠ newIndex)
    (hold : cv.layoutAt oldIndex = some oldLayout)
    (hnew : cv.layoutAt newIndex = some newLayout) :
    (cv._switchLayout oldIndex newIndex cfg).2.calls =
        cfg.calls ++ cv.segments.flatMap (Canvas.segmentCalls cfg oldLayout newLayout) ∧
      (∀ segment, Call.activationsFirst
        (Canvas.segmentCalls cfg oldLayout newLayout segment) = true) ∧
      (oldLayout ≠ newLayout → ∀ (segment : Segment) channel,
        ¬ (channel ∈ Canvas.usedChannels cfg newLayout segment.destChannels ∧
          channel ∈ Canvas.usedChannels cfg oldLayout segment.destChannels)) := by
  refine ⟨?_, ?_, ?_⟩
  · unfold Canvas._switchLayout
    rw [if_neg hne, hold, hnew]
    exact Canvas.foldl_calls oldLayout newLayout cv.segments cfg
  · intro segment
    apply Call.activationsFirst_append
    · intro call hcall channel he
      rcases Compounds.mem_passCalls _ _ _ _ hcall with h | ⟨c, _, h⟩
      · rw [h] at he; cases he
      · rw [h] at he; cases he
    · intro call hcall channel he
      rcases Compounds.mem_passCalls _ _ _ _ hcall with h | ⟨c, _, h⟩
      · rw [h] at he; cases he
      · rw [h] at he; cases he
  · intro hdiff segment channel hboth
    rw [Canvas.mem_usedChannels, Canvas.mem_usedChannels] at hboth
    have h := hboth.1.2.symm.trans hboth.2.2
    exact hdiff (Option.some.inj h).symm

/-- Witness of C7: the switch from layout 0 to layout 1 on the canvas with two
segments. -/
theorem switchLayout_activates_first_per_segment_witness :
    (0 : Nat) ≠ 1 ∧ Canvas.twoSegments.layoutAt 0 = some 10 ∧
      Canvas.twoSegments.layoutAt 1 = some 11 ∧
      (Canvas.twoSegments._switchLayout 0 1 Config.twoRoots).2.calls =
        Config.twoRoots.calls ++
          Canvas.twoSegments.segments.flatMap (Canvas.segmentCalls Config.twoRoots 10 11) :=
  ⟨by decide, by decide, by decide,
    (switchLayout_activates_first_per_segment Canvas.twoSegments 0 1 Config.twoRoots 10 11
      (by decide) (by decide) (by decide)).1⟩

/-- C8: after `_switchLayout( a, b )`, for every canvas, config and indices, a
compound whose destination channel has a layout that is neither `layouts[a]`
nor `layouts[b]` (or has no layout at all) has the active flag it had before
the call. -/
theorem switchLayout_keeps_other_layouts (cv : Canvas) (a b : Nat) (cfg : Config) :
    Compounds.Related
      (fun _ c c1 => ∀ channel, c.channel = some channel →
        (∀ layout, cfg.channelLayout channel = some layout →
          cv.layoutAt a ≠ some layout ∧ cv.layoutAt b ≠ some layout) →
        c1.active = c.active)
      false cfg.compounds (cv._switchLayout a b cfg).2.compounds := by
  have hs := Canvas.step_switchLayout
    (fun _ c c1 => ∀ channel, c.channel = some channel →
      (∀ layout, cfg.channelLayout channel = some layout →
        cv.layoutAt a ≠ some layout ∧ cv.layoutAt b ≠ some layout) →
      c1.active = c.active)
    (fun _ => True) cv a b cfg
    (fun _ _ _ _ _ => rfl)
    (fun _ c1 c2 c3 h21 h12 h23 channel hc hl =>
      (h23 channel (h21.trans hc) hl).trans (h12 channel hc hl))
    (fun layout hb c channel hc hf =>
      ⟨fun ch hch hl => absurd hb (hl layout (by
        rw [hc] at hch; cases hch; exact hf)).2, trivial⟩)
    (fun layout ha c channel hc hf =>
      ⟨fun ch hch hl => absurd ha (hl layout (by
        rw [hc] at hch; cases hch; exact hf)).1, trivial⟩)
    trivial
  exact hs.2.1

/-- C9: a compound without destination channel is matched by neither visitor:
both `visit` functions return `TRAVERSE_CONTINUE` and leave the compound and
the config as they are (no `activate()`, `deactivate()` or `postNeedsFinish()`),
and after any `_switchLayout` call every compound without destination channel
has the active flag it had before. -/
theorem compound_without_channel_untouched (used : List ChannelPtr) (c : Compound)
    (cfg : Config) (cv : Canvas) (a b : Nat) (h : c.channel = none) :
    ActivateVisitor.visit used c cfg = (VisitorResult.TRAVERSE_CONTINUE, c, cfg) ∧
      DeactivateVisitor.visit used c cfg = (VisitorResult.TRAVERSE_CONTINUE, c, cfg) ∧
      Compounds.Related (fun _ x x1 => x.channel = none → x1.active = x.active) false
        cfg.compounds (cv._switchLayout a b cfg).2.compounds := by
  refine ⟨by simp [ActivateVisitor.visit, h], by simp [DeactivateVisitor.visit, h], ?_⟩
  have hs := Canvas.step_switchLayout
    (fun _ x x1 => x.channel = none → x1.active = x.active) (fun _ => True) cv a b cfg
    (fun _ _ _ => rfl)
    (fun _ c1 c2 c3 h21 h12 h23 hc => (h23 (h21.trans hc)).trans (h12 hc))
    (fun _ _ x channel hx _ => ⟨fun hn => Option.noConfusion (hx.symm.trans hn), trivial⟩)
    (fun _ _ x channel hx _ => ⟨fun hn => Option.noConfusion (hx.symm.trans hn), trivial⟩)
    trivial
  exact hs.2.1

/-- Witness of C9: a compound without channel above the compound of channel 2,
in a switch from layout 0 to layout 1 on the canvas with two segments. -/
theorem compound_without_channel_untouched_witness :
    (Compound.mk none true).channel = none ∧
      ActivateVisitor.visit [2] (Compound.mk none true) Config.twoRoots =
        (VisitorResult.TRAVERSE_CONTINUE, Compound.mk none true, Config.twoRoots) :=
  ⟨rfl, (compound_without_channel_untouched [2] (Compound.mk none true) Config.twoRoots
    Canvas.twoSegments 0 1 rfl).1⟩

/-- C10: if `_switchLayout( a, b )` changes the active flag of at least one
compound, then `postNeedsFinish()` has been called at least once during the
switch, and the needs-finish flag is up afterwards. -/
theorem switchLayout_change_posts_needsFinish (cv : Canvas) (a b : Nat) (cfg : Config)
    (h : (cv._switchLayout a b cfg).2.compounds.flags ≠ cfg.compounds.flags) :
    (cv._switchLayout a b cfg).2.needsFinish = true ∧
      cfg.calls.count Call.postNeedsFinish <
        (cv._switchLayout a b cfg).2.calls.count Call.postNeedsFinish := by
  have hr : Config.Raised cfg (cv._switchLayout a b cfg).2 := by
    unfold Canvas._switchLayout
    split
    · exact Or.inl rfl
    · exact Canvas.raised_foldl _ _ _ cfg
  rcases hr with hr | hr
  · rw [hr] at h
    exact absurd rfl h
  · exact hr

/-- Witness of C10: the switch from layout 0 to layout 1 on the canvas with two
segments changes both flags of the forest. -/
theorem switchLayout_change_posts_needsFinish_witness :
    (Canvas.twoSegments._switchLayout 0 1 Config.twoRoots).2.compounds.flags ≠
        Config.twoRoots.compounds.flags ∧
      (Canvas.twoSegments._switchLayout 0 1 Config.twoRoots).2.needsFinish = true ∧
      Config.twoRoots.calls.count Call.postNeedsFinish <
        (Canvas.twoSegments._switchLayout 0 1 Config.twoRoots).2.calls.count
          Call.postNeedsFinish :=
  ⟨by decide, switchLayout_change_posts_needsFinish Canvas.twoSegments 0 1 Config.twoRoots
    (by decide)⟩

/-! ## The end-to-end scenario, deregistration, the pipe -/

/-- Counterexample to C11 as stated. A channel has one layout. If `B` belongs to
`Layout1`, the switch ends with `A` inactive, `B` and `C` active, but
`postNeedsFinish` is called four times, once for every compound a visitor
matches, not once. If `B` belongs to `Layout0`, the compound of `B` ends
inactive. -/
theorem scenario_posts_more_than_once :
    (Canvas.scenario._switchLayout 0 1 (Config.scenario (some 11))).2.compounds.flags =
        [false, true, true] ∧
      (Canvas.scenario._switchLayout 0 1 (Config.scenario (some 11))).2.calls.count
        Call.postNeedsFinish = 4 ∧
      (Canvas.scenario._switchLayout 0 1 (Config.scenario (some 10))).2.compounds.flags =
        [false, false, true] ∧
      2 ≤ (Canvas.scenario._switchLayout 0 1 (Config.scenario (some 10))).2.calls.count
        Call.postNeedsFinish := by
  refine ⟨by decide, by decide, by decide, by decide⟩

/-- C11, amended: in the scenario with `B` a channel of `Layout1`, the switch
from `Layout0` to `Layout1` ends with the compound of `A` inactive and those
of `B` and `C` active, the needs-finish flag is up, and `postNeedsFinish` is
called once after every `activate()` and `deactivate()`: four times, as `B` is
activated for each of the two segments. -/
theorem scenario_switch_outcome :
    (Canvas.scenario._switchLayout 0 1 (Config.scenario (some 11))).2.compounds.flags =
        [false, true, true] ∧
      (Canvas.scenario._switchLayout 0 1 (Config.scenario (some 11))).2.needsFinish = true ∧
      (Canvas.scenario._switchLayout 0 1 (Config.scenario (some 11))).2.calls =
        [Call.activate 2, Call.postNeedsFinish, Call.deactivate 1, Call.postNeedsFinish,
          Call.activate 2, Call.postNeedsFinish, Call.activate 3, Call.postNeedsFinish] := by
  refine ⟨by decide, by decide, by decide⟩

/-- C12: `Canvas::deregister()` issues `deregisterObject` once for each segment
of the canvas, in the order of the segments, and then once for the canvas
itself, which comes last; without segments only the canvas is deregistered.
(The assertions are compiled out, so this holds in particular when every
segment and the canvas are registered masters.) -/
theorem deregister_children_before_parent (cv : Canvas) (session : Session) :
    (cv.deregister session).deregistered =
        session.deregistered ++ cv.segments.map Object.segment ++ [Object.canvas cv] ∧
      ((cv.deregister session).deregistered.drop session.deregistered.length).getLast? =
        some (Object.canvas cv) ∧
      (Canvas.deregister { cv with segments := [] } session).deregistered =
        session.deregistered ++ [Object.canvas { cv with segments := [] }] := by
  have hfold : ∀ (segments : List Segment) (s : Session),
      (segments.foldl (fun s segment => s.deregisterObject (Object.segment segment))
        s).deregistered = s.deregistered ++ segments.map Object.segment := by
    intro segments
    induction segments with
    | nil => intro s; simp
    | cons segment more ih =>
      intro s
      rw [List.foldl_cons, ih]
      simp [Session.deregisterObject]
  have hall : (cv.deregister session).deregistered =
      session.deregistered ++ cv.segments.map Object.segment ++ [Object.canvas cv] := by
    have h1 : (cv.deregister session).deregistered =
        (cv.segments.foldl (fun s segment => s.deregisterObject (Object.segment segment))
          session).deregistered ++ [Object.canvas cv] := rfl
    rw [h1, hfold]
  refine ⟨hall, ?_, ?_⟩
  · rw [hall, List.append_assoc, List.drop_left]
    simp
  · have h1 : (Canvas.deregister { cv with segments := [] } session).deregistered =
        (([] : List Segment).foldl
          (fun s segment => s.deregisterObject (Object.segment segment))
          session).deregistered ++ [Object.canvas { cv with segments := [] }] := rfl
    rw [h1]
    rfl

/-- C13: for every compound and every set of channels (the empty one included)
`DeactivateVisitor::visit` mirrors `ActivateVisitor::visit`: both return the
same result; when the channel of the compound is in the set, the one calls
`activate()`, the other `deactivate()`, and both call `postNeedsFinish()`; when
the compound has a channel that is not in the set both return `TRAVERSE_PRUNE`,
when it has no channel both return `TRAVERSE_CONTINUE`, and in these two cases
neither touches the compound or the config. -/
theorem deactivate_visit_mirrors_activate (used : List ChannelPtr) (c : Compound)
    (cfg : Config) :
    (DeactivateVisitor.visit used c cfg).1 = (ActivateVisitor.visit used c cfg).1 ∧
      (∀ channel, c.channel = some channel → channel ∈ used →
        ActivateVisitor.visit used c cfg =
            (VisitorResult.TRAVERSE_PRUNE, c.activate,
              (cfg.record (Call.activate channel)).postNeedsFinish) ∧
          DeactivateVisitor.visit used c cfg =
            (VisitorResult.TRAVERSE_PRUNE, c.deactivate,
              (cfg.record (Call.deactivate channel)).postNeedsFinish)) ∧
      (∀ channel, c.channel = some channel → channel ∉ used →
        ActivateVisitor.visit used c cfg = (VisitorResult.TRAVERSE_PRUNE, c, cfg) ∧
          DeactivateVisitor.visit used c cfg = (VisitorResult.TRAVERSE_PRUNE, c, cfg)) ∧
      (c.channel = none →
        ActivateVisitor.visit used c cfg = (VisitorResult.TRAVERSE_CONTINUE, c, cfg) ∧
          DeactivateVisitor.visit used c cfg = (VisitorResult.TRAVERSE_CONTINUE, c, cfg)) := by
  refine ⟨?_, ?_, ?_, ?_⟩
  · cases hc : c.channel <;> simp [ActivateVisitor.visit, DeactivateVisitor.visit, hc]
  · intro channel hc hin
    simp [ActivateVisitor.visit, DeactivateVisitor.visit, hc,
      ActivateVisitor.activate_loop_eq, DeactivateVisitor.deactivate_loop_eq, hin,
      Config.record_postNeedsFinish]
  · intro channel hc hout
    simp [ActivateVisitor.visit, DeactivateVisitor.visit, hc,
      ActivateVisitor.activate_loop_eq, DeactivateVisitor.deactivate_loop_eq, hout]
  · intro hc
    simp [ActivateVisitor.visit, DeactivateVisitor.visit, hc]

/-- Witness of C13: a visitor holding no channel at all meets a compound with
channel 1; a visitor holding the channels 2 and 3 meets a compound with
channel 3; and a visitor holding no channel meets a compound without channel. -/
theorem deactivate_visit_mirrors_activate_witness :
    DeactivateVisitor.visit [] (Compound.mk (some 1) true) Config.twoRoots =
        (VisitorResult.TRAVERSE_PRUNE, Compound.mk (some 1) true, Config.twoRoots) ∧
      DeactivateVisitor.visit [2, 3] (Compound.mk (some 3) false) Config.twoRoots =
        (VisitorResult.TRAVERSE_PRUNE, (Compound.mk (some 3) false).deactivate,
          (Config.twoRoots.record (Call.deactivate 3)).postNeedsFinish) ∧
      DeactivateVisitor.visit [] (Compound.mk none true) Config.twoRoots =
        (VisitorResult.TRAVERSE_CONTINUE, Compound.mk none true, Config.twoRoots) :=
  ⟨((deactivate_visit_mirrors_activate [] (Compound.mk (some 1) true)
      Config.twoRoots).2.2.1 1 rfl (by decide)).2,
    ((deactivate_visit_mirrors_activate [2, 3] (Compound.mk (some 3) false)
      Config.twoRoots).2.1 3 rfl (by decide)).2,
    ((deactivate_visit_mirrors_activate [] (Compound.mk none true)
      Config.twoRoots).2.2.2 rfl).2⟩

/-- C14: `pushCommand( node, packet )` returns `COMMAND_HANDLED` for every node
and packet and changes nothing but the request queue, to whose tail it adds
the one entry (node, packet), the entries already queued staying in front in
their order; a sequence of calls returns `COMMAND_HANDLED` every time and adds
its entries in call order. -/
theorem pushCommand_appends_to_tail (COMMAND_HANDLED : Nat) (pipe : Pipe) (node packet : Nat)
    (requests : List Request) :
    (pipe.pushCommand COMMAND_HANDLED node packet).2 = COMMAND_HANDLED ∧
      (pipe.pushCommand COMMAND_HANDLED node packet).1 =
        { pipe with
          _requestQueue := ⟨pipe._requestQueue.requests ++ [⟨node, packet⟩]⟩ } ∧
      (Pipe.pushCommands COMMAND_HANDLED pipe requests).1 =
        { pipe with _requestQueue := ⟨pipe._requestQueue.requests ++ requests⟩ } ∧
      (Pipe.pushCommands COMMAND_HANDLED pipe requests).2 =
        List.replicate requests.length COMMAND_HANDLED := by
  refine ⟨rfl, rfl, ?_, ?_⟩
  · induction requests generalizing pipe with
    | nil => simp [Pipe.pushCommands]
    | cons request more ih =>
      simp only [Pipe.pushCommands]
      rw [ih]
      simp [Pipe.pushCommand, RequestQueue.push]
  · induction requests generalizing pipe with
    | nil => simp [Pipe.pushCommands]
    | cons request more ih =>
      simp only [Pipe.pushCommands]
      rw [ih]
      simp [Pipe.pushCommand, List.replicate]

/-! ## Channel contexts and attributes, error codes, event names -/

/-- C15: after `resetContext()` the current context is the native one and every
context-specific accessor returns the native value, so `getPixelViewport()` is
`getNativePixelViewport()`; after `overrideContext( c )` the accessors return
the members of `c` while `getNativeContext()` and `getNativePixelViewport()`
are what they were; and `overrideContext( c )` followed by `resetContext()`
gives the native values again. -/
theorem context_accessors_follow_context (ch : Channel) (c : RenderContext) :
    ch.resetContext.getContext = ch.resetContext.getNativeContext ∧
      ch.resetContext.getPixelViewport = ch.resetContext.getNativePixelViewport ∧
      ch.resetContext.contextData = ch.getNativeContext ∧
      ch.resetContext.getReadBuffer = ch.getNativeContext.buffer ∧
      (ch.overrideContext c).getContext = c ∧
      (ch.overrideContext c).contextData = c ∧
      (ch.overrideContext c).getPixelViewport = c.pvp ∧
      (ch.overrideContext c).getReadBuffer = c.buffer ∧
      (ch.overrideContext c).getNativeContext = ch.getNativeContext ∧
      (ch.overrideContext c).getNativePixelViewport = ch.getNativePixelViewport ∧
      (ch.overrideContext c).resetContext = ch.resetContext ∧
      (ch.overrideContext c).resetContext.getContext = ch.getNativeContext ∧
      (ch.overrideContext c).resetContext.contextData = ch.getNativeContext ∧
      (ch.overrideContext c).resetContext.getPixelViewport = ch.getNativePixelViewport := by
  refine ⟨rfl, rfl, rfl, rfl, rfl, rfl, rfl, rfl, rfl, rfl, rfl, rfl, rfl, rfl⟩

/-- C16: `ERROR_NONE` is 0; the predefined error codes are numbered 0, 1, ...,
69 in the order of their declaration, `ERROR_PBO_TYPE_UNSUPPORTED` being the
last one with 69, so they are pairwise distinct; `ERROR_CUSTOM` is 0x10000 =
65536, above every predefined code. -/
theorem error_codes_consecutive_below_custom :
    ErrorCode.ERROR_NONE.toNat = 0 ∧
      ErrorCode.predefined.map ErrorCode.toNat = List.range 70 ∧
      ErrorCode.predefined.getLast? = some ErrorCode.ERROR_PBO_TYPE_UNSUPPORTED ∧
      ErrorCode.ERROR_PBO_TYPE_UNSUPPORTED.toNat = 69 ∧
      (ErrorCode.predefined.map ErrorCode.toNat).Nodup ∧
      ErrorCode.predefined.Nodup ∧
      ErrorCode.ERROR_CUSTOM.toNat = 0x10000 ∧
      ErrorCode.ERROR_CUSTOM.toNat = 65536 ∧
      (∀ code ∈ ErrorCode.predefined, code.toNat < ErrorCode.ERROR_CUSTOM.toNat) ∧
      (∀ code, code = ErrorCode.ERROR_CUSTOM ∨ code ∈ ErrorCode.predefined) := by
  have hvalues : ErrorCode.predefined.map ErrorCode.toNat = List.range 70 := by decide
  refine ⟨by decide, hvalues, by decide, by decide, ?_, ?_, by decide, by decide, by decide, ?_⟩
  · rw [hvalues]
    exact List.nodup_range 70
  · exact List.Nodup.of_map ErrorCode.toNat (by rw [hvalues]; exact List.nodup_range 70)
  · intro code
    cases code <;> decide

/-- Counterexample to C17 as stated: on a slave channel `setDirty` does
nothing, so `setIAttribute( IATTR_FILL1, -3 )` stores the value but the bit of
`DIRTY_ATTRIBUTES` (bit 4 when `DIRTY_CUSTOM` is 16) is not set. -/
theorem setIAttribute_on_slave_sets_no_bit :
    (Channel.setIAttribute 16 (Channel.blank false 0) IAttribute.IATTR_FILL1
        (-3))._iAttributes = [0, 0, -3, 0] ∧
      (Channel.DIRTY_ATTRIBUTES 16).testBit 4 = true ∧
      (Channel.setIAttribute 16 (Channel.blank false 0) IAttribute.IATTR_FILL1
        (-3)).dirty.testBit 4 = false ∧
      (Channel.setIAttribute 16 (Channel.blank false 0) IAttribute.IATTR_FILL1 (-3)).dirty =
        0 := by
  refine ⟨by decide, by decide, by decide, by decide⟩

/-- C17, amended: `setIAttribute( attr, value )` with `attr` below `IATTR_ALL`,
on a channel whose array has its `IATTR_ALL` entries, stores the value as
attribute `attr` and leaves every other attribute and the contexts as they
were. On a master channel it ors `DIRTY_ATTRIBUTES`, which is `DIRTY_CUSTOM`,
into the dirty mask: the bits of `DIRTY_ATTRIBUTES` are set (bit `k` when
`DIRTY_CUSTOM` is bit `k`) and every other bit is what it was. On a slave
channel the dirty mask is what it was. -/
theorem setIAttribute_marks_attributes (DIRTY_CUSTOM : Nat) (ch : Channel) (attr : IAttribute)
    (value : Int) (hattr : attr.toNat < IAttribute.IATTR_ALL.toNat)
    (hsize : ch._iAttributes.length = IAttribute.IATTR_ALL.toNat) :
    (ch.setIAttribute DIRTY_CUSTOM attr value)._iAttributes[attr.toNat]? = some value ∧
      (∀ i, i ≠ attr.toNat →
        (ch.setIAttribute DIRTY_CUSTOM attr value)._iAttributes[i]? = ch._iAttributes[i]?) ∧
      (ch.setIAttribute DIRTY_CUSTOM attr value)._iAttributes.length =
        ch._iAttributes.length ∧
      (ch.setIAttribute DIRTY_CUSTOM attr value)._nativeContext = ch._nativeContext ∧
      (ch.setIAttribute DIRTY_CUSTOM attr value)._context = ch._context ∧
      (ch.setIAttribute DIRTY_CUSTOM attr value).isMaster = ch.isMaster ∧
      Channel.DIRTY_ATTRIBUTES DIRTY_CUSTOM = DIRTY_CUSTOM ∧
      (ch.isMaster = true →
        (ch.setIAttribute DIRTY_CUSTOM attr value).dirty = ch.dirty ||| DIRTY_CUSTOM ∧
          (∀ i, (ch.setIAttribute DIRTY_CUSTOM attr value).dirty.testBit i =
            (ch.dirty.testBit i || DIRTY_CUSTOM.testBit i)) ∧
          (∀ k, DIRTY_CUSTOM = 2 ^ k →
            (ch.setIAttribute DIRTY_CUSTOM attr value).dirty.testBit k = true ∧
              ∀ i, i ≠ k →
                (ch.setIAttribute DIRTY_CUSTOM attr value).dirty.testBit i =
                  ch.dirty.testBit i)) ∧
      (ch.isMaster = false → (ch.setIAttribute DIRTY_CUSTOM attr value).dirty = ch.dirty) := by
  have hlt : attr.toNat < ch._iAttributes.length := by rw [hsize]; exact hattr
  have hshift : Channel.DIRTY_ATTRIBUTES DIRTY_CUSTOM = DIRTY_CUSTOM := by
    simp [Channel.DIRTY_ATTRIBUTES]
  cases hm : ch.isMaster with
  | true =>
    have hset : ch.setIAttribute DIRTY_CUSTOM attr value =
        { ch with _iAttributes := ch._iAttributes.set attr.toNat value,
                  dirty := ch.dirty ||| DIRTY_CUSTOM } := by
      simp [Channel.setIAttribute, Channel.setDirty, hm, hshift]
    rw [hset]
    refine ⟨by simp [hlt], ?_, by simp, rfl, rfl, hm.symm ▸ rfl, hshift, ?_, ?_⟩
    · intro i hi
      simp [List.getElem?_set, Ne.symm hi]
    · intro _
      refine ⟨rfl, fun i => by simp [Nat.testBit_or], ?_⟩
      intro k hk
      subst hk
      refine ⟨by simp [Nat.testBit_or, Nat.testBit_two_pow_self], ?_⟩
      intro i hi
      simp [Nat.testBit_or, Nat.testBit_two_pow, Ne.symm hi]
    · intro h
      cases h
  | false =>
    have hset : ch.setIAttribute DIRTY_CUSTOM attr value =
        { ch with _iAttributes := ch._iAttributes.set attr.toNat value } := by
      simp [Channel.setIAttribute, Channel.setDirty, hm]
    rw [hset]
    refine ⟨by simp [hlt], ?_, by simp, rfl, rfl, hm.symm ▸ rfl, hshift, ?_, ?_⟩
    · intro i hi
      simp [List.getElem?_set, Ne.symm hi]
    · intro h
      cases h
    · intro _
      rfl

/-- Witness of C17: on a master channel with four attributes and dirty mask 1,
`IATTR_FILL1` is set to -3; `DIRTY_CUSTOM` is taken to be 16, which is bit 4. -/
theorem setIAttribute_marks_attributes_witness :
    IAttribute.IATTR_FILL1.toNat < IAttribute.IATTR_ALL.toNat ∧
      (Channel.blank true 1)._iAttributes.length = IAttribute.IATTR_ALL.toNat ∧
      (Channel.setIAttribute 16 (Channel.blank true 1) IAttribute.IATTR_FILL1
        (-3))._iAttributes[IAttribute.IATTR_FILL1.toNat]? = some (-3) ∧
      (Channel.setIAttribute 16 (Channel.blank true 1) IAttribute.IATTR_FILL1 (-3)).dirty =
        1 ||| 16 ∧
      (Channel.setIAttribute 16 (Channel.blank true 1) IAttribute.IATTR_FILL1
        (-3)).dirty.testBit 4 = true :=
  ⟨by decide, rfl,
    (setIAttribute_marks_attributes 16 (Channel.blank true 1) IAttribute.IATTR_FILL1 (-3)
      (by decide) rfl).1,
    ((setIAttribute_marks_attributes 16 (Channel.blank true 1) IAttribute.IATTR_FILL1 (-3)
      (by decide) rfl).2.2.2.2.2.2.2.1 rfl).1,
    (((setIAttribute_marks_attributes 16 (Channel.blank true 1) IAttribute.IATTR_FILL1 (-3)
      (by decide) rfl).2.2.2.2.2.2.2.1 rfl).2.2 4 (by decide)).1⟩

/-- C18, the code at the failing inputs: the test `type >= Event::ALL` compares
signed integers, so a type whose stored value has bit 31 set is negative, is
taken to be below `Event::ALL`, and the table is read at a negative index,
outside its bounds, whatever `Event::ALL` is. For the other values the output
is as wanted: a value from `Event::ALL` up to 2^31 - 1 prints `unknown (`, the
value in decimal and `)`, and a value below `Event::ALL` prints its entry of
the table. -/
theorem printType_signed_guard (ALL : Nat) (os : String) (type : Fin 4294967296) :
    (2147483648 ≤ type.val → Event.printType ALL os type = none) ∧
      (type.val < 2147483648 → ALL ≤ type.val →
        Event.printType ALL os type = some (os ++ "unknown (" ++ toString type.val ++ ")")) ∧
      (∀ h : type.val < ALL, type.val < 2147483648 →
        Event.printType ALL os type = some (os ++ Event._eventTypeNames ALL ⟨type.val, h⟩)) := by
  refine ⟨?_, ?_, ?_⟩
  · intro hbit
    have h1 : ¬ type.val < 2147483648 := Nat.not_lt.mpr hbit
    have h2 : type.val < 4294967296 := type.isLt
    have hneg : Event.asInt type < 0 := by
      simp only [Event.asInt, h1, if_false]
      omega
    have h3 : ¬ (ALL : Int) ≤ Event.asInt type := by omega
    have h4 : ¬ (0 ≤ Event.asInt type ∧ (Event.asInt type).toNat < ALL) := by
      intro h
      omega
    simp [Event.printType, h3, h4]
  · intro hlow hge
    have hval : Event.asInt type = (type.val : Int) := by
      simp [Event.asInt, hlow]
    have h3 : (ALL : Int) ≤ Event.asInt type := by
      rw [hval]
      exact Int.ofNat_le.mpr hge
    simp [Event.printType, h3]
  · intro hlt hlow
    have hval : Event.asInt type = (type.val : Int) := by
      simp [Event.asInt, hlow]
    have h3 : ¬ (ALL : Int) ≤ Event.asInt type := by
      rw [hval]
      omega
    have h4 : 0 ≤ Event.asInt type ∧ (Event.asInt type).toNat < ALL := by
      rw [hval]
      exact ⟨Int.ofNat_nonneg _, by simpa using hlt⟩
    have h5 : (Event.asInt type).toNat = type.val := by
      rw [hval]
      rfl
    simp [Event.printType, h3, h5, hlt, h4.1]

/-- Witness of C18: with `Event::ALL` = 15, the type whose stored value is
0x80000000 and the type whose stored value is 0xffffffff (-1) are printed to
an empty stream, and so are the types 20 and 14. -/
theorem printType_signed_guard_witness :
    Event.printType 15 "" 2147483648 = none ∧ Event.printType 15 "" 4294967295 = none ∧
      Event.printType 15 "" 20 = some ("" ++ "unknown (" ++ toString 20 ++ ")") ∧
      Event.printType 15 "" 14 = some ("" ++ Event._eventTypeNames 15 ⟨14, by decide⟩) :=
  ⟨(printType_signed_guard 15 "" 2147483648).1 (by decide),
    (printType_signed_guard 15 "" 4294967295).1 (by decide),
    (printType_signed_guard 15 "" 20).2.1 (by decide) (by decide),
    (printType_signed_guard 15 "" 14).2.2 (by decide) (by decide)⟩

/-- C19, the code at the failing inputs: the comma between `"node transmit"` and
`"node compress"` is missing, so the table has 19 initialisers, not 20; the
entry of type 15 is the two names run together, the entries of the types 16,
17 and 18 are the names listed for 17, 18 and 19, and with `TYPE_ALL` = 20 the
entry of type 19 is the empty string. -/
theorem statistic_names_run_together :
    Statistic.stateEventTypeNameList.length = 19 ∧
      Statistic.namesAsListed.length = 20 ∧
      Statistic._stateEventTypeNames 20 ⟨15, by decide⟩ = "node transmitnode compress" ∧
      Statistic._stateEventTypeNames 20 ⟨16, by decide⟩ = "config start frame" ∧
      Statistic._stateEventTypeNames 20 ⟨17, by decide⟩ = "config finishframe" ∧
      Statistic._stateEventTypeNames 20 ⟨18, by decide⟩ = "config wait finish" ∧
      Statistic._stateEventTypeNames 20 ⟨19, by decide⟩ = "" ∧
      Statistic.namesAsListed[16]? = some "node compress" ∧
      Statistic.namesAsListed[19]? = some "config wait finish" := by
  refine ⟨rfl, rfl, by decide, by decide, by decide, by decide, by decide, rfl, rfl⟩

/-- C20: `getSegment( path )` returns the segment stored at `path.segmentIndex`
when the index is below the number of segments and the null pointer for every
other index, on every canvas (one without segments included); the lookup is
total and reads the vector only below its size. -/
theorem getSegment_in_range_or_null (cv : Canvas) (i : Nat) :
    (∀ h : i < cv.segments.length, cv.getSegment i = some (cv.segments.get ⟨i, h⟩)) ∧
      (cv.segments.length ≤ i → cv.getSegment i = none) ∧
      cv.getSegment i = cv.segments[i]? := by
  refine ⟨?_, ?_, ?_⟩
  · intro h
    have h1 : ¬ cv.segments.length ≤ i := Nat.not_le.mpr h
    simp [Canvas.getSegment, h1]
  · intro h
    simp [Canvas.getSegment, h]
  · by_cases h : cv.segments.length ≤ i
    · simp [Canvas.getSegment, h, List.getElem?_eq_none h]
    · simp [Canvas.getSegment, h, List.getElem?_eq_getElem (Nat.lt_of_not_le h)]

/-- Witness of C20: a canvas without segments read at the index 0, and the
canvas with two segments read at the indices 1 and 2. -/
theorem getSegment_in_range_or_null_witness :
    (Canvas.new [] [] 0).getSegment 0 = none ∧
      Canvas.twoSegments.getSegment 1 = some ⟨[2]⟩ ∧
      Canvas.twoSegments.getSegment 2 = none :=
  ⟨(getSegment_in_range_or_null (Canvas.new [] [] 0) 0).2.1 (by decide),
    (getSegment_in_range_or_null Canvas.twoSegments 1).1 (by decide),
    (getSegment_in_range_or_null Canvas.twoSegments 2).2.1 (by decide)⟩

/-! ## Repeated switches -/

theorem Compounds.write_none (cs : Compounds) : cs.write (fun _ => none) = cs := by
  induction cs with
  | nil => rfl
  | cons c children rest ihc ihr =>
    cases hc : c.channel with
    | none => simp [Compounds.write, hc, ihc, ihr]
    | some channel => simp [Compounds.write, hc, ihr]

theorem Compounds.setUsed_eq_write (value : Bool) (used : List ChannelPtr) (cs : Compounds) :
    cs.setUsed value used = cs.write (Compounds.passWrite value used) := by
  induction cs with
  | nil => rfl
  | cons c children rest ihc ihr =>
    cases hc : c.channel with
    | none => simp [Compounds.setUsed, Compounds.write, hc, ihc, ihr]
    | some channel =>
      by_cases hm : channel ∈ used
      · simp [Compounds.setUsed, Compounds.write, hc, ihr, Compounds.passWrite, hm]
      · simp [Compounds.setUsed, Compounds.write, hc, ihr, Compounds.passWrite, hm]

theorem Compounds.write_write (first second : ChannelPtr → Option Bool) (cs : Compounds) :
    (cs.write first).write second = cs.write (Compounds.thenWrite first second) := by
  induction cs with
  | nil => rfl
  | cons c children rest ihc ihr =>
    cases hc : c.channel with
    | none => simp [Compounds.write, hc, ihc, ihr]
    | some channel =>
      cases h1 : first channel <;> cases h2 : second channel <;>
        simp [Compounds.write, hc, ihr, Compounds.thenWrite, h1, h2]

theorem Compounds.thenWrite_self (w : ChannelPtr → Option Bool) :
    Compounds.thenWrite w w = w := by
  funext channel
  cases h : w channel <;> simp [Compounds.thenWrite, h]

theorem Compounds.write_idempotent (w : ChannelPtr → Option Bool) (cs : Compounds) :
    (cs.write w).write w = cs.write w := by
  rw [Compounds.write_write, Compounds.thenWrite_self]

theorem Canvas.usedChannels_of_layouts (f : ChannelPtr → Option LayoutPtr) (cfg : Config)
    (hf : cfg.channelLayout = f) (layout : LayoutPtr) (dest : List ChannelPtr) :
    Canvas.usedChannels cfg layout dest =
      Canvas.usedChannels ⟨Compounds.nil, f, false, []⟩ layout dest :=
  Canvas.usedChannels_congr ⟨Compounds.nil, f, false, []⟩ cfg layout dest hf

theorem Canvas.switchSegment_write (f : ChannelPtr → Option LayoutPtr)
    (oldLayout newLayout : Option LayoutPtr) (segment : Segment) :
    ∃ w : ChannelPtr → Option Bool, ∀ cfg : Config, cfg.channelLayout = f →
      (Canvas.switchSegment oldLayout newLayout cfg segment).compounds = cfg.compounds.write w ∧
        (Canvas.switchSegment oldLayout newLayout cfg segment).channelLayout = f := by
  have hact : ∃ w : ChannelPtr → Option Bool, ∀ cfg : Config, cfg.channelLayout = f →
      (Canvas.activateUsed newLayout segment cfg).compounds = cfg.compounds.write w ∧
        (Canvas.activateUsed newLayout segment cfg).channelLayout = f := by
    cases newLayout with
    | none =>
      exact ⟨fun _ => none, fun cfg hf => ⟨(Compounds.write_none _).symm, hf⟩⟩
    | some layout =>
      refine ⟨Compounds.passWrite true
        (Canvas.usedChannels ⟨Compounds.nil, f, false, []⟩ layout segment.destChannels), ?_⟩
      intro cfg hf
      rw [Canvas.activateUsed_some, Config.pass_compounds, Config.pass_channelLayout,
        Compounds.setUsed_eq_write, Canvas.usedChannels_of_layouts f cfg hf]
      exact ⟨rfl, hf⟩
  have hdeact : ∃ w : ChannelPtr → Option Bool, ∀ cfg : Config, cfg.channelLayout = f →
      (Canvas.deactivateUsed oldLayout segment cfg).compounds = cfg.compounds.write w ∧
        (Canvas.deactivateUsed oldLayout segment cfg).channelLayout = f := by
    cases oldLayout with
    | none =>
      exact ⟨fun _ => none, fun cfg hf => ⟨(Compounds.write_none _).symm, hf⟩⟩
    | some layout =>
      refine ⟨Compounds.passWrite false
        (Canvas.usedChannels ⟨Compounds.nil, f, false, []⟩ layout segment.destChannels), ?_⟩
      intro cfg hf
      rw [Canvas.deactivateUsed_some, Config.pass_compounds, Config.pass_channelLayout,
        Compounds.setUsed_eq_write, Canvas.usedChannels_of_layouts f cfg hf]
      exact ⟨rfl, hf⟩
  obtain ⟨w1, h1⟩ := hact
  obtain ⟨w2, h2⟩ := hdeact
  refine ⟨Compounds.thenWrite w1 w2, ?_⟩
  intro cfg hf
  obtain ⟨ha, hb⟩ := h1 cfg hf
  obtain ⟨hc, hd⟩ := h2 (Canvas.activateUsed newLayout segment cfg) hb
  unfold Canvas.switchSegment
  rw [hc, ha, Compounds.write_write]
  exact ⟨rfl, hd⟩

theorem Canvas.foldl_write (f : ChannelPtr → Option LayoutPtr)
    (oldLayout newLayout : Option LayoutPtr) (segments : List Segment) :
    ∃ w : ChannelPtr → Option Bool, ∀ cfg : Config, cfg.channelLayout = f →
      (segments.foldl (Canvas.switchSegment oldLayout newLayout) cfg).compounds =
          cfg.compounds.write w ∧
        (segments.foldl (Canvas.switchSegment oldLayout newLayout) cfg).channelLayout = f := by
  induction segments with
  | nil => exact ⟨fun _ => none, fun cfg hf => ⟨(Compounds.write_none _).symm, hf⟩⟩
  | cons segment more ih =>
    obtain ⟨w1, h1⟩ := Canvas.switchSegment_write f oldLayout newLayout segment
    obtain ⟨w2, h2⟩ := ih
    refine ⟨Compounds.thenWrite w1 w2, ?_⟩
    intro cfg hf
    obtain ⟨ha, hb⟩ := h1 cfg hf
    obtain ⟨hc, hd⟩ := h2 (Canvas.switchSegment oldLayout newLayout cfg segment) hb
    rw [List.foldl_cons, hc, ha, Compounds.write_write]
    exact ⟨rfl, hd⟩

theorem Canvas.switchSegment_stepCalls (oldLayout newLayout : Option LayoutPtr)
    (cfg : Config) (segment : Segment) :
    (Canvas.switchSegment oldLayout newLayout cfg segment).calls =
      cfg.calls ++ Canvas.stepCalls cfg oldLayout newLayout segment := by
  cases oldLayout with
  | none =>
    cases newLayout with
    | none => simp [Canvas.switchSegment, Canvas.deactivateUsed, Canvas.activateUsed,
        Canvas.stepCalls]
    | some layout =>
      unfold Canvas.switchSegment
      simp only [Canvas.deactivateUsed]
      rw [Canvas.activateUsed_some, Config.pass_calls]
      simp [Canvas.stepCalls]
  | some old =>
    cases newLayout with
    | none =>
      unfold Canvas.switchSegment
      simp only [Canvas.activateUsed]
      rw [Canvas.deactivateUsed_some, Config.pass_calls]
      simp [Canvas.stepCalls]
    | some layout =>
      rw [Canvas.switchSegment_calls]
      rfl

theorem Canvas.stepCalls_congr (oldLayout newLayout : Option LayoutPtr) (cfg cfg1 : Config)
    (h : Config.Step (fun _ _ _ => True) (fun _ => True) cfg cfg1) (segment : Segment) :
    Canvas.stepCalls cfg1 oldLayout newLayout segment =
      Canvas.stepCalls cfg oldLayout newLayout segment := by
  cases oldLayout <;> cases newLayout <;>
    simp only [Canvas.stepCalls, Canvas.usedChannels_congr cfg cfg1 _ _ h.1,
      Compounds.passCalls_congr _ _ false _ _ h.2.1]

theorem Canvas.step_trivial (oldLayout newLayout : Option LayoutPtr) (cfg : Config)
    (segment : Segment) :
    Config.Step (fun _ _ _ => True) (fun _ => True) cfg
      (Canvas.switchSegment oldLayout newLayout cfg segment) :=
  Canvas.step_switchSegment _ _ _ _ cfg.channelLayout (fun _ _ => trivial)
    (fun _ _ _ _ _ _ _ => trivial) (fun _ _ _ _ _ _ => ⟨trivial, trivial⟩)
    (fun _ _ _ _ _ _ => ⟨trivial, trivial⟩) trivial cfg rfl segment

theorem Canvas.foldl_stepCalls (oldLayout newLayout : Option LayoutPtr)
    (segments : List Segment) (cfg : Config) :
    (segments.foldl (Canvas.switchSegment oldLayout newLayout) cfg).calls =
      cfg.calls ++ segments.flatMap (Canvas.stepCalls cfg oldLayout newLayout) := by
  induction segments generalizing cfg with
  | nil => simp
  | cons segment more ih =>
    have hc : Canvas.stepCalls (Canvas.switchSegment oldLayout newLayout cfg segment)
        oldLayout newLayout = Canvas.stepCalls cfg oldLayout newLayout :=
      funext (Canvas.stepCalls_congr oldLayout newLayout cfg _
        (Canvas.step_trivial oldLayout newLayout cfg segment))
    rw [List.foldl_cons, ih, hc, Canvas.switchSegment_stepCalls, List.flatMap_cons,
      List.append_assoc]

theorem Canvas.foldl_step_trivial (oldLayout newLayout : Option LayoutPtr)
    (segments : List Segment) (cfg : Config) :
    Config.Step (fun _ _ _ => True) (fun _ => True) cfg
      (segments.foldl (Canvas.switchSegment oldLayout newLayout) cfg) :=
  Canvas.step_foldl _ _ _ _ cfg.channelLayout (fun _ _ => trivial)
    (fun _ _ _ _ _ _ _ => trivial) (fun _ _ _ _ _ _ => ⟨trivial, trivial⟩)
    (fun _ _ _ _ _ _ => ⟨trivial, trivial⟩) trivial segments cfg rfl

/-- C21: performing `_switchLayout( a, b )` twice in a row leaves the forest as
it is after the first call: every compound has the active flag the first call
gave it. The second call makes the same `activate()`, `deactivate()` and
`postNeedsFinish()` calls as the first, in the same order: they depend on the
channels, the layouts and the shape of the forest, not on the flags. -/
theorem switchLayout_twice_same_flags (cv : Canvas) (a b : Nat) (cfg : Config) :
    ((cv._switchLayout a b cfg).1._switchLayout a b (cv._switchLayout a b cfg).2).2.compounds =
        (cv._switchLayout a b cfg).2.compounds ∧
      ((cv._switchLayout a b cfg).1._switchLayout a b
          (cv._switchLayout a b cfg).2).2.compounds.flags =
        (cv._switchLayout a b cfg).2.compounds.flags ∧
      ((cv._switchLayout a b cfg).1._switchLayout a b
          (cv._switchLayout a b cfg).2).2.calls.drop (cv._switchLayout a b cfg).2.calls.length =
        (cv._switchLayout a b cfg).2.calls.drop cfg.calls.length := by
  rw [Canvas.switchLayout_fst]
  by_cases hab : a = b
  · subst hab
    simp [Canvas._switchLayout]
  · have hfirst : (cv._switchLayout a b cfg).2 =
        cv.segments.foldl (Canvas.switchSegment (cv.layoutAt a) (cv.layoutAt b)) cfg := by
      simp [Canvas._switchLayout, hab]
    have hsecond : ∀ cfg1 : Config, (cv._switchLayout a b cfg1).2 =
        cv.segments.foldl (Canvas.switchSegment (cv.layoutAt a) (cv.layoutAt b)) cfg1 := by
      intro cfg1
      simp [Canvas._switchLayout, hab]
    rw [hsecond, hfirst]
    obtain ⟨w, hw⟩ := Canvas.foldl_write cfg.channelLayout (cv.layoutAt a) (cv.layoutAt b)
      cv.segments
    obtain ⟨h1, h2⟩ := hw cfg rfl
    obtain ⟨h3, -⟩ := hw _ h2
    have hcompounds : (cv.segments.foldl
        (Canvas.switchSegment (cv.layoutAt a) (cv.layoutAt b))
        (cv.segments.foldl (Canvas.switchSegment (cv.layoutAt a) (cv.layoutAt b))
          cfg)).compounds =
        (cv.segments.foldl (Canvas.switchSegment (cv.layoutAt a) (cv.layoutAt b))
          cfg).compounds := by
      rw [h3, h1, Compounds.write_idempotent]
    refine ⟨hcompounds, by rw [hcompounds], ?_⟩
    have hstep := Canvas.foldl_step_trivial (cv.layoutAt a) (cv.layoutAt b) cv.segments cfg
    have hc : Canvas.stepCalls
        (cv.segments.foldl (Canvas.switchSegment (cv.layoutAt a) (cv.layoutAt b)) cfg)
        (cv.layoutAt a) (cv.layoutAt b) = Canvas.stepCalls cfg (cv.layoutAt a) (cv.layoutAt b) :=
      funext (Canvas.stepCalls_congr (cv.layoutAt a) (cv.layoutAt b) cfg _ hstep)
    rw [Canvas.foldl_stepCalls (cv.layoutAt a) (cv.layoutAt b) cv.segments
      (cv.segments.foldl (Canvas.switchSegment (cv.layoutAt a) (cv.layoutAt b)) cfg),
      List.drop_left, hc, Canvas.foldl_stepCalls, List.drop_left]

end Equalizer
